import Mathlib

/-!
Ralli dispatch & batching engine — shallow embedding and verification.

This file embeds the core logic of the Ralli ride-dispatch application
(TypeScript services `dispatchService.ts`, `rides.ts`, `safetyService.ts`,
`batchService.ts`, `etaService.ts`, plus the type/constant module
`types/database.ts`) as executable Lean definitions and proves or refutes
the frozen specification claims about it.

Modelling conventions:
* The Supabase persistence layer is modelled as an in-memory record `DB`
  holding the rows of each table as lists, in stored order; a query with
  an `ORDER BY` clause is modelled by an explicit (insertion) sort, a
  filtered query by `List.filter`, an `update ... eq(id)` by a map that
  rewrites the matching rows, and an insert by appending a row whose fresh
  primary key is drawn from the `next_id` counter.
* Timestamps (`created_at`, `arrival_deadline_timestamp`, ...) are
  naturals counting milliseconds, matching the JS `Date.getTime()` scale;
  "now" is an explicit argument of the operations that read the clock.
* Coordinates are rationals.  The transcendental haversine formula
  (`haversineDistance`) and the external routing provider inside
  `calculateETA` are modelled as oracle parameters `hav` (a distance
  function, rationals in km) and `eta` (a leg-ETA function, naturals in
  minutes): every theorem below is proved for all oracles, and concrete
  witnesses instantiate them with executable stand-ins (`havZero`,
  `havOne`, `etaTen`) defined at the end of the definitions section.
* JavaScript truthiness tests on coordinates (`driver.current_lat &&
  driver.current_lng` and `!driver.current_lat || !driver.current_lng`)
  are modelled exactly: `none` and `some 0` both fail the test.
* I/O failures of the persistence layer are out of scope: the storage
  operations themselves never fail in the model (the spec treats them as
  a reliable collaborator), so only the validation error paths of the
  services are represented.
-/

/-- Ride lifecycle states, from `types/database.ts` (`RideStatus`). -/
inductive RideStatus
  | waiting
  | assigned
  | arrived
  | in_progress
  | completed
  | cancelled
  | no_show
deriving DecidableEq, BEq, Repr

/-- Driver states, from `types/database.ts` (`DriverStatus`). -/
inductive DriverStatus
  | offline
  | available
  | assigned
deriving DecidableEq, BEq, Repr

/-- Batch states, from `types/database.ts` (`BatchStatus`). -/
inductive BatchStatus
  | pending
  | in_progress
  | completed
  | cancelled
deriving DecidableEq, BEq, Repr

instance : LawfulBEq RideStatus where
  eq_of_beq {a b} h := by cases a <;> cases b <;> first | rfl | cases h
  rfl {a} := by cases a <;> rfl

instance : LawfulBEq DriverStatus where
  eq_of_beq {a b} h := by cases a <;> cases b <;> first | rfl | cases h
  rfl {a} := by cases a <;> rfl

instance : LawfulBEq BatchStatus where
  eq_of_beq {a b} h := by cases a <;> cases b <;> first | rfl | cases h
  rfl {a} := by cases a <;> rfl

/-- The allowed ride transitions, from `VALID_RIDE_TRANSITIONS` in
`types/database.ts`. -/
def VALID_RIDE_TRANSITIONS : RideStatus → List RideStatus
  | .waiting => [.assigned, .cancelled]
  | .assigned => [.arrived, .cancelled, .no_show]
  | .arrived => [.in_progress, .cancelled, .no_show]
  | .in_progress => [.completed, .cancelled]
  | .completed => []
  | .cancelled => []
  | .no_show => []

/-- `isValidTransition` from `dispatchService.ts`:
`VALID_RIDE_TRANSITIONS[currentStatus]?.includes(newStatus) ?? false`. -/
def isValidTransition (currentStatus newStatus : RideStatus) : Bool :=
  (VALID_RIDE_TRANSITIONS currentStatus).contains newStatus

/-- A row of `ride_requests` (interface `RideRequest`). -/
structure Ride where
  id : Nat
  event_id : Nat
  pickup_lat : ℚ
  pickup_lng : ℚ
  passenger_count : Nat
  status : RideStatus
  assigned_driver_id : Option Nat := none
  driver_eta_minutes : Option ℤ := none
  arrival_timestamp : Option Nat := none
  completion_timestamp : Option Nat := none
  arrival_deadline_timestamp : Option Nat := none
  rider_confirmed : Bool := false
  rider_identifier_hash : Option String := none
  batch_id : Option Nat := none
  pickup_sequence_index : Option Nat := none
  created_at : Nat := 0
deriving DecidableEq, Repr

/-- A row of `drivers` (interface `Driver`). -/
structure Driver where
  id : Nat
  event_id : Nat
  is_online : Bool
  current_status : DriverStatus
  current_lat : Option ℚ := none
  current_lng : Option ℚ := none
  max_capacity : Nat := 4
  current_passenger_load : Nat := 0
deriving DecidableEq, Repr

/-- A row of `rider_penalties` (interface `RiderPenalty`). -/
structure RiderPenalty where
  id : Nat
  event_id : Nat
  rider_identifier_hash : String
  no_show_count : Nat
  cooldown_until : Option Nat := none
deriving DecidableEq, Repr

/-- A row of `ride_batches` (interface `RideBatch`). -/
structure RideBatch where
  id : Nat
  event_id : Nat
  driver_id : Option Nat := none
  status : BatchStatus
  total_passengers : Nat
  created_at : Nat := 0
deriving DecidableEq, Repr

/-- A row of `ride_batch_items` (interface `RideBatchItem`). -/
structure RideBatchItem where
  id : Nat
  batch_id : Nat
  ride_request_id : Nat
  pickup_order_index : Nat
  estimated_arrival_time : Option Nat := none
  picked_up : Bool := false
  picked_up_at : Option Nat := none
deriving DecidableEq, Repr

/-- The persistence layer: the rows of every table, in stored order,
plus a fresh-id counter used for inserts. -/
structure DB where
  rides : List Ride := []
  drivers : List Driver := []
  penalties : List RiderPenalty := []
  batches : List RideBatch := []
  batch_items : List RideBatchItem := []
  next_id : Nat := 1
deriving DecidableEq, Repr

/-- Validation failures surfaced by the services ("Ride not found",
"Invalid transition from X to Y", "Cannot assign ride with status: X",
"Driver location not available", "Batch item not found", ...). -/
inductive ServiceError
  | notFound
  | invalidTransition
  | locationUnavailable
deriving DecidableEq, Repr

/-- `UPDATE ... WHERE key = k`: rewrite every stored row whose key
matches (the key is a primary key, so well-formed states have at most
one match). -/
def updateBy (key : α → Nat) (k : Nat) (f : α → α) (l : List α) : List α :=
  l.map fun x => if key x = k then f x else x

def updateRideById (rid : Nat) (f : Ride → Ride) (l : List Ride) : List Ride :=
  updateBy Ride.id rid f l

def updateDriverById (did : Nat) (f : Driver → Driver) (l : List Driver) : List Driver :=
  updateBy Driver.id did f l

/-- `SELECT ... WHERE id = ... .single()` point lookup. -/
def DB.findRide (s : DB) (rid : Nat) : Option Ride :=
  s.rides.find? fun r => r.id == rid

def DB.findDriver (s : DB) (did : Nat) : Option Driver :=
  s.drivers.find? fun d => d.id == did

/-- Safety constants from `safetyService.ts`. -/
def NO_SHOW_TIMER_MINUTES : Nat := 3

def NO_SHOW_THRESHOLD : Nat := 2

def COOLDOWN_MINUTES : Nat := 15

/-- Milliseconds per minute (JS timestamps are in ms). -/
def msPerMinute : Nat := 60000

/-- The per-target side effects of `transitionRideStatus`
(`dispatchService.ts` lines 252-267): timestamps and the
`rider_confirmed` flag, applied together with the status write. -/
def applyTransitionFields (newStatus : RideStatus) (now : Nat) (r : Ride) : Ride :=
  match newStatus with
  | .arrived =>
      { r with
        status := newStatus
        arrival_timestamp := some now
        arrival_deadline_timestamp := some (now + NO_SHOW_TIMER_MINUTES * msPerMinute)
        rider_confirmed := false }
  | .completed =>
      { r with status := newStatus, completion_timestamp := some now }
  | .in_progress =>
      { r with status := newStatus, rider_confirmed := true }
  | _ => { r with status := newStatus }

/-- Targets whose transition frees the associated driver
(`newStatus === "completed" || "cancelled" || "no_show"`). -/
def freesDriver : RideStatus → Bool
  | .completed => true
  | .cancelled => true
  | .no_show => true
  | _ => false

/-- `transitionRideStatus(rideId, newStatus, driverId?)` from
`dispatchService.ts`: fetch the ride, validate the transition against the
table (failing without any write), apply the status plus its timestamp
side effects, and on a terminal target set the driver
(`driverId || ride.assigned_driver_id`) back to `available`. -/
def transitionRideStatus (rid : Nat) (newStatus : RideStatus) (driverId : Option Nat)
    (now : Nat) (s : DB) : Option ServiceError × DB :=
  match s.findRide rid with
  | none => (some .notFound, s)
  | some ride =>
      if isValidTransition ride.status newStatus then
        let s1 := { s with rides := updateRideById rid (applyTransitionFields newStatus now) s.rides }
        if freesDriver newStatus then
          match driverId.orElse fun _ => ride.assigned_driver_id with
          | some target =>
              (none, { s1 with
                drivers := updateDriverById target
                  (fun d => { d with current_status := .available }) s1.drivers })
          | none => (none, s1)
        else
          (none, s1)
      else
        (some .invalidTransition, s)

/-- `cancelRideRequest` from `rides.ts`: a plain
`update({status: "cancelled"}).eq("id", requestId)` with no state-machine
validation at all. -/
def cancelRideRequest (rid : Nat) (s : DB) : Option ServiceError × DB :=
  (none, { s with rides := updateRideById rid (fun r => { r with status := .cancelled }) s.rides })

/-- Distance oracle type standing in for `haversineDistance(lat1,lng1,lat2,lng2)`
(the transcendental formula itself is not representable executably; all
theorems hold for every oracle). -/
def Hav : Type := ℚ → ℚ → ℚ → ℚ → ℚ

/-- The driver query of `findNearestDriver` / `findAvailableDriversWithCapacity`:
`.eq("event_id", eventId).eq("is_online", true)
 .eq("current_status", "available")
 .not("current_lat", "is", null).not("current_lng", "is", null)`. -/
def eligibleDriverQuery (ev : Nat) (d : Driver) : Bool :=
  d.event_id == ev && d.is_online && d.current_status == .available
    && d.current_lat.isSome && d.current_lng.isSome

/-- `findNearestDriver(eventId, pickupLat, pickupLng)` from
`dispatchService.ts`: among the queried drivers, scan keeping the first
strictly-nearest one; the body guard `driver.current_lat &&
driver.current_lng` (JS truthiness) additionally skips drivers whose
stored latitude or longitude is exactly 0. -/
def nearestDriverStep (hav : Hav) (pickupLat pickupLng : ℚ)
    (acc : Option (Driver × ℚ)) (d : Driver) : Option (Driver × ℚ) :=
  match d.current_lat, d.current_lng with
  | some dlat, some dlng =>
      if dlat = 0 then acc
      else if dlng = 0 then acc
      else
        let dist := hav pickupLat pickupLng dlat dlng
        match acc with
        | none => some (d, dist)
        | some (_, minDistance) =>
            if dist < minDistance then some (d, dist) else acc
  | _, _ => acc

def findNearestDriver (hav : Hav) (ev : Nat) (pickupLat pickupLng : ℚ) (s : DB) :
    Option (Driver × ℚ) :=
  (s.drivers.filter (eligibleDriverQuery ev)).foldl (nearestDriverStep hav pickupLat pickupLng) none

/-- The JS-truthiness coordinate guard of the dispatch loops: both
coordinates present *and nonzero*. -/
def strictCoord (d : Driver) : Bool :=
  match d.current_lat, d.current_lng with
  | some dlat, some dlng => decide (dlat ≠ 0) && decide (dlng ≠ 0)
  | _, _ => false

/-- Drivers that `findNearestDriver` can actually pick: the query filter
plus the JS-truthiness guard. -/
def strictEligible (ev : Nat) (d : Driver) : Bool :=
  eligibleDriverQuery ev d && strictCoord d

/-- The distance `findNearestDriver` computes for a driver (its
coordinates are present whenever the guard holds). -/
def havOf (hav : Hav) (pLat pLng : ℚ) (d : Driver) : ℚ :=
  hav pLat pLng (d.current_lat.getD 0) (d.current_lng.getD 0)

/-- Number of drivers the dispatch loop can still consume. -/
def countEligibleStrict (ev : Nat) (s : DB) : Nat :=
  (s.drivers.filter (strictEligible ev)).length

/-- The ride query of `getOldestWaitingRide`:
`.eq("event_id", eventId).eq("status", "waiting")`. -/
def waitingOf (ev : Nat) (r : Ride) : Bool :=
  r.event_id == ev && r.status == .waiting

/-- Number of waiting rides of the event. -/
def countWaiting (ev : Nat) (s : DB) : Nat :=
  (s.rides.filter (waitingOf ev)).length

/-- `getOldestWaitingRide(eventId)` from `dispatchService.ts`:
`.order("created_at", {ascending: true}).limit(1).maybeSingle()`, i.e. a
minimum of `created_at` over the waiting rides of the event (on ties the
storage order decides; the fold keeps the first). -/
def oldestRideStep (acc : Option Ride) (r : Ride) : Option Ride :=
  match acc with
  | none => some r
  | some best => if r.created_at < best.created_at then some r else acc

def getOldestWaitingRide (ev : Nat) (s : DB) : Option Ride :=
  (s.rides.filter (waitingOf ev)).foldl oldestRideStep none

/-- `assignDriverToRide(rideId, driverId, etaMinutes?)` from
`dispatchService.ts`: fetch the ride, validate `status → assigned`
against the table, write the assignment onto the ride and set the driver
to `assigned`.  A JSON body drops `undefined` members, so an absent
`etaMinutes` leaves `driver_eta_minutes` untouched. -/
def assignDriverToRide (rid driverId : Nat) (etaMinutes : Option ℤ) (s : DB) :
    Option ServiceError × DB :=
  match s.findRide rid with
  | none => (some .notFound, s)
  | some ride =>
      if isValidTransition ride.status .assigned then
        let s1 := { s with
          rides := updateRideById rid
            (fun r =>
              { r with
                assigned_driver_id := some driverId
                status := .assigned
                driver_eta_minutes := etaMinutes.orElse fun _ => r.driver_eta_minutes })
            s.rides }
        (none, { s1 with
          drivers := updateDriverById driverId
            (fun d => { d with current_status := .assigned }) s1.drivers })
      else
        (some .invalidTransition, s)

/-- The result record of `smartDispatch`. -/
structure DispatchResult where
  assigned : Bool
  rideId : Option Nat := none
  driverId : Option Nat := none
  distance : Option ℚ := none
deriving DecidableEq, Repr

/-- `smartDispatch(eventId)` from `dispatchService.ts`: oldest waiting
ride, nearest available driver, then
`etaMinutes = distance ? Math.ceil((distance / 30) * 60) : undefined`
(JS truthiness: a distance of exactly 0 yields no ETA) and
`assignDriverToRide`. -/
def smartDispatch (hav : Hav) (ev : Nat) (s : DB) : DispatchResult × DB :=
  match getOldestWaitingRide ev s with
  | none => ({ assigned := false }, s)
  | some ride =>
      match findNearestDriver hav ev ride.pickup_lat ride.pickup_lng s with
      | none => ({ assigned := false }, s)
      | some (driver, distance) =>
          let etaMinutes : Option ℤ :=
            if distance = 0 then none else some ⌈distance / 30 * 60⌉
          match assignDriverToRide ride.id driver.id etaMinutes s with
          | (some _, s1) => ({ assigned := false }, s1)
          | (none, s1) =>
              ({ assigned := true
                 rideId := some ride.id
                 driverId := some driver.id
                 distance := some distance }, s1)

/-- The `while (keepGoing)` loop of `dispatchAllRides`, with explicit
fuel.  `dispatchAllRides` passes `countWaiting + 1` fuel, which is shown
sufficient because every assigning iteration consumes one waiting ride
(`smartDispatch_assigned_counts` below), so the loop always ends on a
non-assigning call exactly as the unbounded source loop does. -/
def dispatchLoop (hav : Hav) (ev : Nat) : Nat → DB → Nat → Nat × DB
  | 0, s, acc => (acc, s)
  | fuel + 1, s, acc =>
      match smartDispatch hav ev s with
      | (res, s1) =>
          if res.assigned then dispatchLoop hav ev fuel s1 (acc + 1) else (acc, s1)

/-- `dispatchAllRides(eventId)` from `dispatchService.ts`: repeat
`smartDispatch` until a call makes no assignment, returning the count. -/
def dispatchAllRides (hav : Hav) (ev : Nat) (s : DB) : Nat × DB :=
  dispatchLoop hav ev (countWaiting ev s + 1) s 0

/-- Penalty lookup shared by the safety service:
`.eq("event_id", ...).eq("rider_identifier_hash", ...).maybeSingle()`. -/
def findPenalty (ev : Nat) (h : String) (s : DB) : Option RiderPenalty :=
  s.penalties.find? fun p => p.event_id == ev && p.rider_identifier_hash == h

/-- `incrementNoShowCount(eventId, riderIdentifierHash)` from
`safetyService.ts`: update an existing penalty row (applying the cooldown
and resetting the counter to 0 once `newCount >= NO_SHOW_THRESHOLD`), or
insert a fresh row with `no_show_count = 1`.  The JS
`cooldownEnd.setMinutes(getMinutes() + COOLDOWN_MINUTES)` adds exactly
`COOLDOWN_MINUTES` minutes to the clock. -/
def incrementNoShowCount (ev : Nat) (h : String) (now : Nat) (s : DB) :
    Option ServiceError × DB :=
  match findPenalty ev h s with
  | some existing =>
      let newCount := existing.no_show_count + 1
      let upd : RiderPenalty → RiderPenalty :=
        if NO_SHOW_THRESHOLD ≤ newCount then
          fun p =>
            { p with
              no_show_count := 0
              cooldown_until := some (now + COOLDOWN_MINUTES * msPerMinute) }
        else
          fun p => { p with no_show_count := newCount }
      (none, { s with penalties := updateBy RiderPenalty.id existing.id upd s.penalties })
  | none =>
      (none, { s with
        penalties := s.penalties ++
          [{ id := s.next_id
             event_id := ev
             rider_identifier_hash := h
             no_show_count := 1 }]
        next_id := s.next_id + 1 })

/-- The `CooldownStatus` result of `getCooldownStatus`. -/
structure CooldownStatus where
  is_in_cooldown : Bool
  cooldown_until : Option Nat := none
  remaining_minutes : Option Nat := none
deriving DecidableEq, Repr

/-- Ceiling division on naturals, modelling `Math.ceil(remainingMs / 60000)`
for a positive numerator. -/
def ceilDiv (a b : Nat) : Nat := (a + (b - 1)) / b

/-- `getCooldownStatus(eventId, riderIdentifierHash)` from
`safetyService.ts`: no record or no `cooldown_until`, or a deadline
already passed (`cooldownEnd <= now`), reports not-in-cooldown; otherwise
in-cooldown with `Math.ceil(remainingMs / 60000)` minutes remaining. -/
def getCooldownStatus (ev : Nat) (h : String) (now : Nat) (s : DB) : CooldownStatus :=
  match findPenalty ev h s with
  | none => { is_in_cooldown := false }
  | some p =>
      match p.cooldown_until with
      | none => { is_in_cooldown := false }
      | some cooldownEnd =>
          if cooldownEnd ≤ now then { is_in_cooldown := false }
          else
            { is_in_cooldown := true
              cooldown_until := some cooldownEnd
              remaining_minutes := some (ceilDiv (cooldownEnd - now) msPerMinute) }

/-- `confirmRiderPresence(rideId)` from `safetyService.ts`: a guarded
update `.eq("id", rideId).eq("status", "arrived")` — only a ride
currently in `arrived` is moved to `in_progress`. -/
def confirmRiderPresence (rid : Nat) (s : DB) : Option ServiceError × DB :=
  (none, { s with
    rides := s.rides.map fun r =>
      if r.id = rid ∧ r.status = .arrived then
        { r with rider_confirmed := true, status := .in_progress }
      else r })

/-- `getExpiredNoShowRides()` from `safetyService.ts`: rides with
`status = arrived`, `rider_confirmed = false` and a non-null
`arrival_deadline_timestamp < now`. -/
def getExpiredNoShowRides (now : Nat) (s : DB) : List Ride :=
  s.rides.filter fun r =>
    r.status == .arrived && !r.rider_confirmed
      && (match r.arrival_deadline_timestamp with
          | some deadline => decide (deadline < now)
          | none => false)

/-- `processNoShow(rideId, eventId, riderIdentifierHash, driverId)` from
`safetyService.ts`: set the ride's status to `no_show` with a plain
unvalidated update, free the driver if one is given, and increment the
penalty counter if a rider hash is present. -/
def processNoShow (rid : Nat) (ev : Nat) (riderIdentifierHash : Option String)
    (driverId : Option Nat) (now : Nat) (s : DB) : Option ServiceError × DB :=
  let s1 := { s with
    rides := updateRideById rid (fun r => { r with status := .no_show }) s.rides }
  let s2 :=
    match driverId with
    | some did =>
        { s1 with
          drivers := updateDriverById did
            (fun d => { d with current_status := .available }) s1.drivers }
    | none => s1
  match riderIdentifierHash with
  | some h => incrementNoShowCount ev h now s2
  | none => (none, s2)

/-- Leg-ETA oracle type standing in for `calculateETA` of `etaService.ts`
(external-provider-first with a heuristic fallback; minutes returned). -/
def Eta : Type := ℚ → ℚ → ℚ → ℚ → Nat

/-- The projection `rides.map(r => ({id, pickup_lat, pickup_lng}))` that
`createBatch` passes to `calculatePickupOrder`. -/
structure Stop where
  id : Nat
  pickup_lat : ℚ
  pickup_lng : ℚ
deriving DecidableEq, Repr

/-- One element of `calculatePickupOrder`'s result
(`{ride_id, order, eta_minutes}`, `eta_minutes` cumulative). -/
structure OrderEntry where
  ride_id : Nat
  order : Nat
  eta_minutes : Nat
deriving DecidableEq, Repr

/-- The inner scan of `calculatePickupOrder`: the index of the first
strictly-nearest unvisited pickup (source inits `nearestIdx = 0`,
`nearestDistance = Infinity`; the fold below starts from element 0's
distance, which is equivalent for a nonempty list). -/
def nearestIdxGo (hav : Hav) (cLat cLng : ℚ) : List Stop → Nat → Nat → ℚ → Nat
  | [], _, best, _ => best
  | st :: rest, i, best, bestD =>
      let d := hav cLat cLng st.pickup_lat st.pickup_lng
      if d < bestD then nearestIdxGo hav cLat cLng rest (i + 1) i d
      else nearestIdxGo hav cLat cLng rest (i + 1) best bestD

def nearestIdxIn (hav : Hav) (cLat cLng : ℚ) : List Stop → Nat
  | [] => 0
  | hd :: tl => nearestIdxGo hav cLat cLng tl 1 0 (hav cLat cLng hd.pickup_lat hd.pickup_lng)

/-- The `while (remaining.length > 0)` loop of `calculatePickupOrder`
(`batchService.ts`): pick the nearest remaining stop, accumulate its leg
ETA into the cumulative time, emit the next order index, move the current
position to that stop and splice it out.  The loop consumes one element
per iteration, so `remaining.length` fuel (supplied by
`calculatePickupOrder`) runs it to completion. -/
def calcOrderGo (hav : Hav) (eta : Eta) :
    Nat → List Stop → ℚ → ℚ → Nat → Nat → List OrderEntry
  | 0, _, _, _, _, _ => []
  | fuel + 1, remaining, cLat, cLng, cumulativeTime, ord =>
      match remaining[nearestIdxIn hav cLat cLng remaining]? with
      | none => []
      | some chosen =>
          let cum2 := cumulativeTime + eta cLat cLng chosen.pickup_lat chosen.pickup_lng
          { ride_id := chosen.id, order := ord, eta_minutes := cum2 } ::
            calcOrderGo hav eta fuel
              (remaining.eraseIdx (nearestIdxIn hav cLat cLng remaining))
              chosen.pickup_lat chosen.pickup_lng cum2 (ord + 1)

/-- `calculatePickupOrder(driverLat, driverLng, rides)` from
`batchService.ts` (its `rides.length === 1` special case computes the
same single-leg result as one loop iteration). -/
def calculatePickupOrder (hav : Hav) (eta : Eta) (driverLat driverLng : ℚ)
    (stops : List Stop) : List OrderEntry :=
  calcOrderGo hav eta stops.length stops driverLat driverLng 0 0

def rideToStop (r : Ride) : Stop :=
  { id := r.id, pickup_lat := r.pickup_lat, pickup_lng := r.pickup_lng }

/-- The rows `createBatch` inserts into `ride_batch_items`, one per
`pickupOrder` entry, with `estimated_arrival_time = now + eta_minutes`
(fresh primary keys drawn consecutively). -/
def mkItems (batchId now : Nat) : List OrderEntry → Nat → List RideBatchItem
  | [], _ => []
  | e :: es, nid =>
      { id := nid
        batch_id := batchId
        ride_request_id := e.ride_id
        pickup_order_index := e.order
        estimated_arrival_time := some (now + e.eta_minutes * msPerMinute)
        picked_up := false } :: mkItems batchId now es (nid + 1)

/-- `createBatch(eventId, driverId, rideIds)` from `batchService.ts`:
fetch the rides (`.in("id", rideIds)`) and the driver's location (failing
on a missing driver or a JS-falsy coordinate), sum the passengers, insert
the pending batch row, compute the pickup order, insert the items, stamp
each batched ride (`batch_id`, sequence index, driver, `status:
"assigned"` — written directly, not via `transitionRideStatus`), and set
the driver to `assigned` carrying the whole batch load. -/
def createBatch (hav : Hav) (eta : Eta) (ev driverId : Nat) (rideIds : List Nat)
    (now : Nat) (s : DB) : Option ServiceError × Option RideBatch × DB :=
  let rides := s.rides.filter fun r => rideIds.contains r.id
  match s.findDriver driverId with
  | none => (some .locationUnavailable, none, s)
  | some driver =>
      match driver.current_lat, driver.current_lng with
      | some dLat, some dLng =>
          if dLat = 0 ∨ dLng = 0 then (some .locationUnavailable, none, s)
          else
            let totalPassengers := (rides.map Ride.passenger_count).sum
            let batch : RideBatch :=
              { id := s.next_id
                event_id := ev
                driver_id := some driverId
                status := .pending
                total_passengers := totalPassengers
                created_at := now }
            let s1 := { s with batches := s.batches ++ [batch], next_id := s.next_id + 1 }
            let pickupOrder := calculatePickupOrder hav eta dLat dLng (rides.map rideToStop)
            let items := mkItems batch.id now pickupOrder s1.next_id
            let s2 := { s1 with
              batch_items := s1.batch_items ++ items
              next_id := s1.next_id + items.length }
            let s3 := { s2 with
              rides := pickupOrder.foldl
                (fun (l : List Ride) (e : OrderEntry) => updateRideById e.ride_id
                  (fun r =>
                    { r with
                      batch_id := some batch.id
                      pickup_sequence_index := some e.order
                      assigned_driver_id := some driverId
                      status := .assigned
                      driver_eta_minutes := some (e.eta_minutes : ℤ) })
                  l)
                s2.rides }
            (none, some batch,
              { s3 with
                drivers := updateDriverById driverId
                  (fun d =>
                    { d with
                      current_status := .assigned
                      current_passenger_load := totalPassengers })
                  s3.drivers })
      | _, _ => (some .locationUnavailable, none, s)

/-- `Math.round` on a rational: JS rounds half toward +∞. -/
def jsRound (q : ℚ) : ℤ := ⌊q + 1 / 2⌋

/-- `generateClusterKey(lat, lng)` from `batchService.ts`: the template
string `round(lat*200) + ":" + round(lng*200)`, modelled as the integer
pair (string concatenation only juxtaposes the two rounded numbers). -/
def generateClusterKey (lat lng : ℚ) : ℤ × ℤ :=
  (jsRound (lat * 200), jsRound (lng * 200))

/-- A `RideCluster` (types/database.ts). -/
structure RideCluster where
  cluster_key : ℤ × ℤ
  ride_ids : List Nat
  total_passengers : Nat
  oldest_created_at : Nat
  avg_lat : ℚ
  avg_lng : ℚ
deriving DecidableEq, Repr

/-- One step of the cluster-grouping loop of `getWaitingRidesByCluster`:
push onto an existing cluster (running average
`(oldAvg * (n-1) + new) / n` with `n` the post-push member count) or open
a new one; the association list keeps JS-`Map` insertion order. -/
def addRideToClusters (cs : List RideCluster) (r : Ride) : List RideCluster :=
  let key := generateClusterKey r.pickup_lat r.pickup_lng
  if cs.any fun c => c.cluster_key = key then
    cs.map fun c =>
      if c.cluster_key = key then
        let count : Nat := c.ride_ids.length + 1
        { c with
          ride_ids := c.ride_ids ++ [r.id]
          total_passengers := c.total_passengers + r.passenger_count
          avg_lat := (c.avg_lat * ((count : ℚ) - 1) + r.pickup_lat) / (count : ℚ)
          avg_lng := (c.avg_lng * ((count : ℚ) - 1) + r.pickup_lng) / (count : ℚ)
          oldest_created_at :=
            if r.created_at < c.oldest_created_at then r.created_at
            else c.oldest_created_at }
      else c
  else
    cs ++ [{ cluster_key := key
             ride_ids := [r.id]
             total_passengers := r.passenger_count
             oldest_created_at := r.created_at
             avg_lat := r.pickup_lat
             avg_lng := r.pickup_lng }]

/-- Stable ascending insertion by a natural-number key, modelling both the
`ORDER BY created_at ASC` of the storage layer and the stable JS
`Array.sort` on timestamps. -/
def insertByKey (key : α → Nat) (x : α) : List α → List α
  | [] => [x]
  | y :: ys => if key x ≤ key y then x :: y :: ys else y :: insertByKey key x ys

def sortByKey (key : α → Nat) : List α → List α
  | [] => []
  | x :: xs => insertByKey key x (sortByKey key xs)

/-- The ride query of `getWaitingRidesByCluster`:
`.eq("event_id",...).eq("status","waiting").is("batch_id", null)`. -/
def clusterQuery (ev : Nat) (r : Ride) : Bool :=
  r.event_id == ev && r.status == .waiting && r.batch_id.isNone

/-- `getWaitingRidesByCluster(eventId)` from `batchService.ts`: group the
un-batched waiting rides (in `created_at` order) by cluster key, then
return the clusters oldest-first. -/
def getWaitingRidesByCluster (ev : Nat) (s : DB) : List RideCluster :=
  let rides := sortByKey Ride.created_at (s.rides.filter (clusterQuery ev))
  sortByKey RideCluster.oldest_created_at (rides.foldl addRideToClusters [])

/-- `d.max_capacity || 4`: JS truthiness makes a stored capacity of 0
fall back to the default 4 (`current_passenger_load || 0` is the identity
on a natural and needs no counterpart). -/
def effMaxCapacity (d : Driver) : Nat :=
  if d.max_capacity = 0 then 4 else d.max_capacity

/-- A driver's free seats as computed throughout `batchService.ts`:
`(max_capacity || 4) - (current_passenger_load || 0)` (signed, as in JS). -/
def availableCapacity (d : Driver) : ℤ :=
  (effMaxCapacity d : ℤ) - (d.current_passenger_load : ℤ)

/-- `findAvailableDriversWithCapacity(eventId, requiredCapacity)` from
`batchService.ts`: the available/online/located driver query, then a JS
`filter` keeping the drivers with enough free seats — in query order; no
sort of any kind is applied. -/
def findAvailableDriversWithCapacity (ev : Nat) (requiredCapacity : ℤ) (s : DB) :
    List Driver :=
  (s.drivers.filter (eligibleDriverQuery ev)).filter fun d =>
    requiredCapacity ≤ availableCapacity d

/-- The nearest-driver scan of `batchDispatch`: starts with
`nearestDriver = drivers[0]` (unconditionally) and `minDistance = ∞`,
then keeps the first strictly-nearest driver among those with JS-truthy
coordinates. -/
def clusterNearestStep (hav : Hav) (cl : RideCluster)
    (best : Driver × Option ℚ) (d : Driver) : Driver × Option ℚ :=
  match d.current_lat, d.current_lng with
  | some dlat, some dlng =>
      if dlat = 0 then best
      else if dlng = 0 then best
      else
        let dist := hav cl.avg_lat cl.avg_lng dlat dlng
        match best.2 with
        | none => (d, some dist)
        | some minDistance =>
            if dist < minDistance then (d, some dist) else best
  | _, _ => best

def nearestDriverToCluster (hav : Hav) (cl : RideCluster) (d0 : Driver)
    (rest : List Driver) : Driver :=
  ((d0 :: rest).foldl (clusterNearestStep hav cl) (d0, none)).1

/-- The ride-selection loop of `batchDispatch`: scan the cluster's rides
in creation order, adding each ride whose passengers still fit
(`passengerCount + ride.passenger_count <= driverCapacity`) and skipping
— not stopping at — any ride that does not fit.  Returns the selected
ids and their passenger sum. -/
def selectRidesForCapacity (driverCapacity : ℤ) (clusterRides : List Ride) :
    List Nat × ℤ :=
  clusterRides.foldl
    (fun sel r =>
      if sel.2 + (r.passenger_count : ℤ) ≤ driverCapacity then
        (sel.1 ++ [r.id], sel.2 + (r.passenger_count : ℤ))
      else sel)
    ([], 0)

/-- The body of `batchDispatch`'s per-cluster loop (`batchService.ts`
lines 495-566): find drivers with capacity `min(total_passengers, 4)`,
pick the nearest to the cluster's average point, refetch the cluster's
rides in creation order, greedily select the ones fitting the free
seats, and create the batch; any failure skips the cluster. -/
def batchDispatchStep (hav : Hav) (eta : Eta) (ev now : Nat)
    (acc : Nat × Nat × DB) (cluster : RideCluster) : Nat × Nat × DB :=
  let s := acc.2.2
  match findAvailableDriversWithCapacity ev (min cluster.total_passengers 4 : Nat) s with
  | [] => acc
  | d0 :: rest =>
      let nearestDriver := nearestDriverToCluster hav cluster d0 rest
      let driverCapacity := availableCapacity nearestDriver
      let clusterRides :=
        sortByKey Ride.created_at (s.rides.filter fun r => cluster.ride_ids.contains r.id)
      let ridesToBatch := (selectRidesForCapacity driverCapacity clusterRides).1
      if ridesToBatch.isEmpty then acc
      else
        match createBatch hav eta ev nearestDriver.id ridesToBatch now s with
        | (_, none, s1) => (acc.1, acc.2.1, s1)
        | (_, some _, s1) => (acc.1 + 1, acc.2.1 + ridesToBatch.length, s1)

/-- `batchDispatch(eventId)` from `batchService.ts`: one pass over the
clusters, oldest first. -/
def batchDispatch (hav : Hav) (eta : Eta) (ev now : Nat) (s : DB) : Nat × Nat × DB :=
  (getWaitingRidesByCluster ev s).foldl (batchDispatchStep hav eta ev now) (0, 0, s)

def DB.findItem (s : DB) (iid : Nat) : Option RideBatchItem :=
  s.batch_items.find? fun i => i.id == iid

/-- `markPickupComplete(batchItemId)` from `batchService.ts`: stamp the
item picked-up, write the ride to `in_progress` directly (no transition
validation), and once no unpicked item remains move the batch to
`in_progress`. -/
def markPickupComplete (batchItemId now : Nat) (s : DB) : Option ServiceError × DB :=
  match s.findItem batchItemId with
  | none => (some .notFound, s)
  | some item =>
      let s1 := { s with
        batch_items := updateBy RideBatchItem.id batchItemId
          (fun i => { i with picked_up := true, picked_up_at := some now }) s.batch_items }
      let s2 := { s1 with
        rides := updateRideById item.ride_request_id
          (fun r => { r with status := .in_progress, rider_confirmed := true }) s1.rides }
      let remainingPickups := s2.batch_items.filter fun i =>
        i.batch_id == item.batch_id && !i.picked_up
      if remainingPickups.isEmpty then
        (none, { s2 with
          batches := updateBy RideBatch.id item.batch_id
            (fun b => { b with status := .in_progress }) s2.batches })
      else (none, s2)

/-- `completeBatch(batchId)` from `batchService.ts`: complete the batch
row, write every member ride to `completed` directly (stamping the
completion timestamp), and free the driver entirely. -/
def completeBatch (batchId now : Nat) (s : DB) : Option ServiceError × DB :=
  match s.batches.find? (fun b => b.id == batchId) with
  | none => (some .notFound, s)
  | some batch =>
      let items := s.batch_items.filter fun i => i.batch_id == batchId
      let s1 := { s with
        batches := updateBy RideBatch.id batchId
          (fun b => { b with status := .completed }) s.batches }
      let s2 := { s1 with
        rides := items.foldl
          (fun l i => updateRideById i.ride_request_id
            (fun r => { r with status := .completed, completion_timestamp := some now }) l)
          s1.rides }
      match batch.driver_id with
      | some did =>
          (none, { s2 with
            drivers := updateDriverById did
              (fun d => { d with current_status := .available, current_passenger_load := 0 })
              s2.drivers })
      | none => (none, s2)

/-- Executable taxicab stand-in used to instantiate the distance oracle in
concrete witnesses (any oracle satisfies the theorems). -/
def havTaxi : Hav := fun lat1 lng1 lat2 lng2 => |lat2 - lat1| + |lng2 - lng1|

/-- ETA constants from `etaService.ts`. -/
def AVERAGE_SPEED_KMH : ℚ := 30

def MIN_ETA_MINUTES : ℤ := 2

def MAX_ETA_MINUTES : ℤ := 60

/-- `getFallbackETA` of `etaService.ts` over a distance oracle:
`max(2, min(60, ceil(distanceKm / 30 * 60 * 1.2)))` minutes. -/
def fallbackEtaMinutes (hav : Hav) : Eta := fun oLat oLng dLat dLng =>
  (max MIN_ETA_MINUTES
    (min MAX_ETA_MINUTES ⌈hav oLat oLng dLat dLng / AVERAGE_SPEED_KMH * 60 * (6 / 5)⌉)).toNat

/-- Executable leg-ETA stand-in. -/
def etaFlat : Eta := fallbackEtaMinutes havTaxi

/-- Constant oracles used to instantiate the theorems at concrete stores
(rational *arithmetic* does not reduce inside the kernel, so concrete
runs use oracles that return literals; the theorems themselves hold for
every oracle, `havTaxi`/`etaFlat` included). -/
def havZero : Hav := fun _ _ _ _ => 0

def havOne : Hav := fun _ _ _ _ => 1

def etaTen : Eta := fun _ _ _ _ => 10

/-! ## Generic lemmas about the storage primitives -/

theorem updateBy_cons (key : α → Nat) (k : Nat) (f : α → α) (y : α) (ys : List α) :
    updateBy key k f (y :: ys) = (if key y = k then f y else y) :: updateBy key k f ys := rfl

theorem updateBy_map_key (key : α → Nat) (k : Nat) (f : α → α)
    (hf : ∀ x, key (f x) = key x) (l : List α) :
    (updateBy key k f l).map key = l.map key := by
  induction l with
  | nil => rfl
  | cons x xs ih =>
      rw [updateBy_cons, List.map_cons, List.map_cons, ih]
      congr 1
      split <;> simp [hf]

theorem updateBy_eq_self (key : α → Nat) (k : Nat) (f : α → α) (l : List α)
    (h : ∀ x ∈ l, key x ≠ k) : updateBy key k f l = l := by
  induction l with
  | nil => rfl
  | cons x xs ih =>
      rw [updateBy_cons, if_neg (h x (by simp)), ih fun y hy => h y (List.mem_cons_of_mem _ hy)]

theorem find?_updateBy (key : α → Nat) (k : Nat) (f : α → α)
    (hf : ∀ x, key (f x) = key x) (l : List α) :
    (updateBy key k f l).find? (fun x => key x == k)
      = (l.find? (fun x => key x == k)).map f := by
  induction l with
  | nil => rfl
  | cons x xs ih =>
      rw [updateBy_cons]
      by_cases hx : key x = k
      · rw [if_pos hx]
        rw [List.find?_cons_of_pos _ (by simp [hf, hx]), List.find?_cons_of_pos _ (by simp [hx])]
        rfl
      · rw [if_neg hx]
        rw [List.find?_cons_of_neg _ (by simp [hx]), List.find?_cons_of_neg _ (by simp [hx]), ih]

theorem find?_key_mem (key : α → Nat) (k : Nat) (l : List α) (x : α)
    (h : l.find? (fun y => key y == k) = some x) : x ∈ l ∧ key x = k :=
  ⟨List.mem_of_find?_eq_some h, by simpa using List.find?_some h⟩

theorem find?_of_nodup (key : α → Nat) (l : List α) (x : α)
    (hnd : (l.map key).Nodup) (hx : x ∈ l) :
    l.find? (fun y => key y == key x) = some x := by
  induction l with
  | nil => cases hx
  | cons y ys ih =>
      have hnd2 : (∀ z ∈ ys, key z ≠ key y) ∧ (ys.map key).Nodup := by simpa using hnd
      rcases List.mem_cons.mp hx with rfl | hx'
      · exact List.find?_cons_of_pos _ (by simp)
      · have hne : key y ≠ key x := (hnd2.1 x hx').symm
        rw [List.find?_cons_of_neg _ (by simp [hne]), ih hnd2.2 hx']

theorem countP_updateBy (key : α → Nat) (f : α → α) (p : α → Bool)
    (l : List α) (x : α) (hnd : (l.map key).Nodup) (hx : x ∈ l) :
    (updateBy key (key x) f l).countP p + (if p x then 1 else 0)
      = l.countP p + (if p (f x) then 1 else 0) := by
  induction l with
  | nil => cases hx
  | cons y ys ih =>
      have hnd2 : (∀ z ∈ ys, key z ≠ key y) ∧ (ys.map key).Nodup := by simpa using hnd
      rcases List.mem_cons.mp hx with rfl | hx'
      · have hrest : updateBy key (key x) f ys = ys :=
          updateBy_eq_self _ _ _ _ fun z hz => hnd2.1 z hz
        rw [updateBy_cons, if_pos rfl, hrest, List.countP_cons, List.countP_cons]
        rcases hpx : p x <;> rcases hpfx : p (f x) <;>
          simp only [hpx, hpfx, Bool.false_eq_true, if_false, if_true]
      · have hne : key y ≠ key x := (hnd2.1 x hx').symm
        rw [updateBy_cons, if_neg hne, List.countP_cons, List.countP_cons]
        have := ih hnd2.2 hx'
        rcases hpy : p y <;> simp only [hpy, Bool.false_eq_true, if_false, if_true] <;> omega

/-! ## Claim C2 — invalid transitions fail without a write -/

/-- Claim C2: for every (fromState, toState) pair not in the allowed
table, `transitionRideStatus` on a ride currently in fromState returns
the invalid-transition failure and leaves the whole store unchanged. -/
theorem C2_invalid_transition_fails_without_write
    (s : DB) (rid : Nat) (r : Ride) (newStatus : RideStatus) (driverId : Option Nat)
    (now : Nat) (hfind : s.findRide rid = some r)
    (hinv : isValidTransition r.status newStatus = false) :
    transitionRideStatus rid newStatus driverId now s = (some .invalidTransition, s) := by
  unfold transitionRideStatus
  rw [hfind]
  simp [hinv]

def c2Ride : Ride :=
  { id := 1, event_id := 1, pickup_lat := 1, pickup_lng := 1, passenger_count := 1
    status := .completed, created_at := 0 }

def c2DB : DB := { rides := [c2Ride] }

/-- Claim C2, witness: a `completed → assigned` request at a concrete
store fails with `invalidTransition` and changes nothing. -/
theorem C2_witness :
    transitionRideStatus 1 .assigned none 5 c2DB = (some .invalidTransition, c2DB) :=
  C2_invalid_transition_fails_without_write c2DB 1 c2Ride .assigned none 5
    (by decide) (by decide)

/-! ## Claim C1 — is the validated transition the only path? -/

def c1Ride : Ride :=
  { id := 1, event_id := 1, pickup_lat := 1, pickup_lng := 1, passenger_count := 1
    status := .completed, created_at := 0 }

def c1DB : DB := { rides := [c1Ride] }

/-- Claim C1, counterexample: `cancelRideRequest` writes `cancelled`
directly with no validation, so a ride already `completed` (a terminal
state with no outgoing edges) still has its stored status changed to
`cancelled` — a status change along a pair that is not an edge of the
transition table, outside `transitionRideStatus`. -/
theorem C1_counterexample :
    ((cancelRideRequest 1 c1DB).2.findRide 1).map Ride.status = some .cancelled
      ∧ isValidTransition .completed .cancelled = false := by decide

theorem applyTransitionFields_id (st : RideStatus) (now : Nat) (r : Ride) :
    (applyTransitionFields st now r).id = r.id := by
  cases st <;> rfl

theorem applyTransitionFields_status (st : RideStatus) (now : Nat) (r : Ride) :
    (applyTransitionFields st now r).status = st := by
  cases st <;> rfl

/-- Claim C1, amended: `transitionRideStatus` itself only ever changes a
ride's stored status along an edge of the transition table, but it is not
the only path — `cancelRideRequest`, `updateRideStatus`, `processNoShow`,
`markPickupComplete`, `createBatch` and `completeBatch` all write ride
status directly without consulting the table (see the counterexample). -/
theorem C1_amended_transition_respects_table
    (s : DB) (rid : Nat) (newStatus : RideStatus) (driverId : Option Nat) (now : Nat)
    (r r' : Ride) (hr : s.findRide rid = some r)
    (hr' : ((transitionRideStatus rid newStatus driverId now s).2).findRide rid = some r') :
    r'.status = r.status ∨ isValidTransition r.status r'.status = true := by
  unfold transitionRideStatus at hr'
  rw [hr] at hr'
  by_cases hv : isValidTransition r.status newStatus
  · have hfind :
        ({ s with rides := updateRideById rid (applyTransitionFields newStatus now) s.rides } : DB).findRide rid
          = some (applyTransitionFields newStatus now r) := by
      show (updateRideById rid (applyTransitionFields newStatus now) s.rides).find? _ = _
      rw [updateRideById, find?_updateBy Ride.id rid _ (applyTransitionFields_id newStatus now), ]
      show (s.findRide rid).map _ = _
      rw [hr]
      rfl
    simp only [hv, if_true] at hr'
    have hstatus : r'.status = newStatus := by
      rcases hfree : freesDriver newStatus <;> simp only [hfree, Bool.false_eq_true,
        if_false, if_true] at hr'
      · rw [hfind] at hr'
        cases hr'
        exact applyTransitionFields_status newStatus now r
      · rcases htgt : driverId.orElse fun _ => r.assigned_driver_id with _ | target <;>
          rw [htgt] at hr'
        · rw [hfind] at hr'
          cases hr'
          exact applyTransitionFields_status newStatus now r
        · have : (({ s with rides := updateRideById rid (applyTransitionFields newStatus now) s.rides } : DB)).findRide rid = some r' := hr'
          rw [hfind] at this
          cases this
          exact applyTransitionFields_status newStatus now r
    right
    rw [hstatus]
    exact hv
  · simp only [hv, Bool.false_eq_true, if_false] at hr'
    rw [hr] at hr'
    cases hr'
    exact Or.inl rfl

def c1wDB : DB :=
  { rides := [{ id := 7, event_id := 1, pickup_lat := 1, pickup_lng := 1
                passenger_count := 1, status := .waiting, created_at := 0 }] }

/-- Claim C1, witness for the amended theorem: a concrete `waiting →
assigned` call, whose written status change is indeed a table edge. -/
theorem C1_amended_witness :
    (({ id := 7, event_id := 1, pickup_lat := 1, pickup_lng := 1
        passenger_count := 1, status := .assigned, created_at := 0 : Ride }).status
        = ({ id := 7, event_id := 1, pickup_lat := 1, pickup_lng := 1
             passenger_count := 1, status := .waiting, created_at := 0 : Ride }).status)
      ∨ isValidTransition
          ({ id := 7, event_id := 1, pickup_lat := 1, pickup_lng := 1
             passenger_count := 1, status := .waiting, created_at := 0 : Ride }).status
          ({ id := 7, event_id := 1, pickup_lat := 1, pickup_lng := 1
             passenger_count := 1, status := .assigned, created_at := 0 : Ride }).status = true :=
  C1_amended_transition_respects_table c1wDB 7 .assigned none 3 _ _ (by decide) (by decide)

/-! ## Claim C5 — no-show threshold, counter reset, cooldown report -/

theorem updateBy_append (key : α → Nat) (k : Nat) (f : α → α) (l1 l2 : List α) :
    updateBy key k f (l1 ++ l2) = updateBy key k f l1 ++ updateBy key k f l2 :=
  List.map_append _ _ _

theorem incrementNoShowCount_insert (ev : Nat) (h : String) (now : Nat) (s : DB)
    (hnone : findPenalty ev h s = none) :
    incrementNoShowCount ev h now s =
      (none, { s with
        penalties := s.penalties ++
          [{ id := s.next_id, event_id := ev, rider_identifier_hash := h, no_show_count := 1 }]
        next_id := s.next_id + 1 }) := by
  unfold incrementNoShowCount
  rw [hnone]

theorem incrementNoShowCount_threshold (ev : Nat) (h : String) (now : Nat) (s : DB)
    (p : RiderPenalty) (hfp : findPenalty ev h s = some p)
    (hth : NO_SHOW_THRESHOLD ≤ p.no_show_count + 1) :
    incrementNoShowCount ev h now s =
      (none, { s with
        penalties := updateBy RiderPenalty.id p.id
          (fun q => { q with
            no_show_count := 0
            cooldown_until := some (now + COOLDOWN_MINUTES * msPerMinute) })
          s.penalties }) := by
  unfold incrementNoShowCount
  rw [hfp]
  simp only [if_pos hth]

theorem findPenalty_append_last (ev : Nat) (h : String) (l : List RiderPenalty)
    (p : RiderPenalty)
    (hall : ∀ x ∈ l, ¬ (x.event_id == ev && x.rider_identifier_hash == h) = true)
    (hp : (p.event_id == ev && p.rider_identifier_hash == h) = true) :
    (l ++ [p]).find? (fun x => x.event_id == ev && x.rider_identifier_hash == h) = some p := by
  rw [List.find?_append, List.find?_eq_none.mpr hall]
  simp [hp]

/-- Claim C5: starting from no penalty record for (event, riderHash), two
no-show increments set `cooldown_until` exactly `COOLDOWN_MINUTES`
(15 min) ahead of the second increment and reset `no_show_count` to 0,
and `getCooldownStatus` queried at any instant `q` from the increment up
to the deadline reports an active cooldown with `0 < remaining_minutes ≤
COOLDOWN_MINUTES`. -/
theorem C5_no_show_threshold_cooldown
    (s : DB) (ev : Nat) (h : String) (now1 now2 q : Nat)
    (hnone : findPenalty ev h s = none)
    (hfresh : ∀ p ∈ s.penalties, p.id < s.next_id)
    (hq1 : now2 ≤ q) (hq2 : q < now2 + COOLDOWN_MINUTES * msPerMinute) :
    ∃ p, findPenalty ev h
        (incrementNoShowCount ev h now2 (incrementNoShowCount ev h now1 s).2).2 = some p
      ∧ p.cooldown_until = some (now2 + COOLDOWN_MINUTES * msPerMinute)
      ∧ p.no_show_count = 0
      ∧ (getCooldownStatus ev h q
          (incrementNoShowCount ev h now2 (incrementNoShowCount ev h now1 s).2).2).is_in_cooldown
          = true
      ∧ ∃ m, (getCooldownStatus ev h q
            (incrementNoShowCount ev h now2 (incrementNoShowCount ev h now1 s).2).2).remaining_minutes
            = some m ∧ 0 < m ∧ m ≤ COOLDOWN_MINUTES := by
  have hall : ∀ x ∈ s.penalties,
      ¬ (x.event_id == ev && x.rider_identifier_hash == h) = true := by
    intro x hx
    exact List.find?_eq_none.mp hnone x hx
  have hs1 := incrementNoShowCount_insert ev h now1 s hnone
  have hfind1 : findPenalty ev h (incrementNoShowCount ev h now1 s).2 =
      some { id := s.next_id, event_id := ev, rider_identifier_hash := h, no_show_count := 1 } := by
    rw [hs1]
    exact findPenalty_append_last ev h s.penalties _ hall (by simp)
  have hs2 := incrementNoShowCount_threshold ev h now2 (incrementNoShowCount ev h now1 s).2
    _ hfind1 (by show NO_SHOW_THRESHOLD ≤ 1 + 1; decide)
  have hpen2 : (incrementNoShowCount ev h now2 (incrementNoShowCount ev h now1 s).2).2.penalties
      = s.penalties ++
        [{ id := s.next_id, event_id := ev, rider_identifier_hash := h, no_show_count := 0
           cooldown_until := some (now2 + COOLDOWN_MINUTES * msPerMinute) }] := by
    rw [hs2]
    show updateBy RiderPenalty.id s.next_id _ (incrementNoShowCount ev h now1 s).2.penalties = _
    rw [hs1]
    show updateBy RiderPenalty.id s.next_id _ (s.penalties ++ [_]) = _
    rw [updateBy_append]
    congr 1
    · exact updateBy_eq_self _ _ _ _ fun z hz he => by
        have := hfresh z hz
        omega
    · rw [updateBy_cons]
      rw [if_pos rfl]
      rfl
  have hfind2 : findPenalty ev h
      (incrementNoShowCount ev h now2 (incrementNoShowCount ev h now1 s).2).2 =
      some { id := s.next_id, event_id := ev, rider_identifier_hash := h, no_show_count := 0
             cooldown_until := some (now2 + COOLDOWN_MINUTES * msPerMinute) } := by
    show (incrementNoShowCount ev h now2 (incrementNoShowCount ev h now1 s).2).2.penalties.find? _
      = _
    rw [hpen2]
    exact findPenalty_append_last ev h s.penalties _ hall (by simp)
  have hgc : getCooldownStatus ev h q
      (incrementNoShowCount ev h now2 (incrementNoShowCount ev h now1 s).2).2 =
      { is_in_cooldown := true
        cooldown_until := some (now2 + COOLDOWN_MINUTES * msPerMinute)
        remaining_minutes :=
          some (ceilDiv (now2 + COOLDOWN_MINUTES * msPerMinute - q) msPerMinute) } := by
    unfold getCooldownStatus
    rw [hfind2]
    show (if now2 + COOLDOWN_MINUTES * msPerMinute ≤ q then
        ({ is_in_cooldown := false } : CooldownStatus)
      else
        { is_in_cooldown := true
          cooldown_until := some (now2 + COOLDOWN_MINUTES * msPerMinute)
          remaining_minutes :=
            some (ceilDiv (now2 + COOLDOWN_MINUTES * msPerMinute - q) msPerMinute) }) = _
    rw [if_neg (by omega)]
  refine ⟨_, hfind2, rfl, rfl, ?_, ?_⟩
  · rw [hgc]
  · rw [hgc]
    refine ⟨ceilDiv (now2 + COOLDOWN_MINUTES * msPerMinute - q) msPerMinute, rfl, ?_, ?_⟩
    · unfold ceilDiv COOLDOWN_MINUTES msPerMinute at *
      omega
    · unfold ceilDiv COOLDOWN_MINUTES msPerMinute at *
      omega

def c5DB : DB := { next_id := 10 }

/-- Claim C5, witness: the two-increment scenario run concretely from an
empty store at rider hash "abc". -/
theorem C5_witness :
    ∃ p, findPenalty 1 "abc"
        (incrementNoShowCount 1 "abc" 0 (incrementNoShowCount 1 "abc" 0 c5DB).2).2 = some p
      ∧ p.cooldown_until = some (0 + COOLDOWN_MINUTES * msPerMinute)
      ∧ p.no_show_count = 0
      ∧ (getCooldownStatus 1 "abc" 0
          (incrementNoShowCount 1 "abc" 0 (incrementNoShowCount 1 "abc" 0 c5DB).2).2).is_in_cooldown
          = true
      ∧ ∃ m, (getCooldownStatus 1 "abc" 0
            (incrementNoShowCount 1 "abc" 0 (incrementNoShowCount 1 "abc" 0 c5DB).2).2).remaining_minutes
            = some m ∧ 0 < m ∧ m ≤ COOLDOWN_MINUTES :=
  C5_no_show_threshold_cooldown c5DB 1 "abc" 0 0 0 (by decide)
    (by intro p hp; cases hp) (by decide) (by decide)

/-! ## Claim C8 — `findAvailableDriversWithCapacity`: content right, order not sorted -/

def c8DriverLow : Driver :=
  { id := 1, event_id := 1, is_online := true, current_status := .available
    current_lat := some 2, current_lng := some 2, max_capacity := 4
    current_passenger_load := 2 }

def c8DriverHigh : Driver :=
  { id := 2, event_id := 1, is_online := true, current_status := .available
    current_lat := some 3, current_lng := some 3, max_capacity := 4
    current_passenger_load := 0 }

def c8DB : DB := { drivers := [c8DriverLow, c8DriverHigh] }

/-- Claim C8, counterexample: with two eligible drivers stored as
[2 free seats, 4 free seats], the function returns them in that same
query order — the available capacities [2, 4] are *not* in descending
order, refuting the claimed capacity-descending ordering. -/
theorem C8_counterexample :
    (findAvailableDriversWithCapacity 1 1 c8DB).map availableCapacity = [2, 4]
      ∧ ¬ List.Sorted (fun a b : ℤ => b ≤ a)
          ((findAvailableDriversWithCapacity 1 1 c8DB).map availableCapacity) := by
  constructor
  · decide
  · decide

/-- Claim C8, amended: `findAvailableDriversWithCapacity(eventId,
requiredCapacity)` returns exactly the event's online, available drivers
with non-null coordinates whose effective free capacity
`(max_capacity || 4) - current_passenger_load` is at least
`requiredCapacity` — but in the underlying query's order: the function
applies no ordering at all, in particular no capacity-descending sort. -/
theorem C8_amended_filter_in_query_order (ev : Nat) (req : ℤ) (s : DB) :
    (∀ d : Driver, d ∈ findAvailableDriversWithCapacity ev req s ↔
        d ∈ s.drivers ∧ eligibleDriverQuery ev d = true ∧ req ≤ availableCapacity d)
      ∧ (findAvailableDriversWithCapacity ev req s).Sublist s.drivers := by
  constructor
  · intro d
    unfold findAvailableDriversWithCapacity
    simp [List.mem_filter, and_assoc]
    tauto
  · exact (List.filter_sublist _).trans (List.filter_sublist _)

/-- Claim C8, witness: the membership characterization instantiated at a
concrete driver and store. -/
theorem C8_amended_witness :
    c8DriverHigh ∈ findAvailableDriversWithCapacity 1 1 c8DB ↔
      c8DriverHigh ∈ c8DB.drivers ∧ eligibleDriverQuery 1 c8DriverHigh = true
        ∧ (1 : ℤ) ≤ availableCapacity c8DriverHigh :=
  (C8_amended_filter_in_query_order 1 1 c8DB).1 c8DriverHigh

/-! ## Claim C9 — candidate capacity `min(total, 4)` and skip-greedy ride selection -/

/-- Modelled from the claim's words: the longest creation-ordered
*initial segment* of the cluster's rides whose passenger sum fits the
capacity — it stops at the first ride that does not fit. -/
def specFittingInitialSegment (cap : ℤ) : List Ride → ℤ → List Nat
  | [], _ => []
  | r :: rs, sum =>
      if sum + (r.passenger_count : ℤ) ≤ cap then
        r.id :: specFittingInitialSegment cap rs (sum + (r.passenger_count : ℤ))
      else []

/-- The skip-and-continue greedy scan that `selectRidesForCapacity`'s
fold implements, written as a direct recursion: a ride that does not fit
is skipped and the scan continues with later rides. -/
def greedySkipSelect (cap : ℤ) : List Ride → ℤ → List Nat
  | [], _ => []
  | r :: rs, sum =>
      if sum + (r.passenger_count : ℤ) ≤ cap then
        r.id :: greedySkipSelect cap rs (sum + (r.passenger_count : ℤ))
      else greedySkipSelect cap rs sum

def c9RideA : Ride :=
  { id := 1, event_id := 1, pickup_lat := 10, pickup_lng := 10, passenger_count := 3
    status := .waiting, created_at := 100 }

def c9RideB : Ride :=
  { id := 2, event_id := 1, pickup_lat := 10, pickup_lng := 10, passenger_count := 2
    status := .waiting, created_at := 200 }

def c9RideC : Ride :=
  { id := 3, event_id := 1, pickup_lat := 10, pickup_lng := 10, passenger_count := 1
    status := .waiting, created_at := 300 }

def c9Driver : Driver :=
  { id := 9, event_id := 1, is_online := true, current_status := .available
    current_lat := some 10, current_lng := some 11, max_capacity := 4 }

def c9DB : DB :=
  { rides := [c9RideA, c9RideB, c9RideC], drivers := [c9Driver], next_id := 50 }

def c9Cluster : RideCluster :=
  { cluster_key := (2000, 2000), ride_ids := [1, 2, 3], total_passengers := 6
    oldest_created_at := 100, avg_lat := 10, avg_lng := 10 }

/-- Claim C9, counterexample: a cluster of rides with passenger counts
[3, 2, 1] (creation order) and a driver with 4 free seats.  The batch
created by the per-cluster dispatch step contains rides {1, 3} — ride 2
is skipped and the scan continues — whereas the longest creation-ordered
fitting *initial segment* is just [1].  The batch is therefore not a
prefix-by-greedy of the cluster's rides. -/
theorem C9_counterexample :
    (batchDispatchStep havZero etaTen 1 1000 (0, 0, c9DB) c9Cluster).2.2.batch_items.map
        RideBatchItem.ride_request_id = [1, 3]
      ∧ (selectRidesForCapacity 4 (sortByKey Ride.created_at [c9RideA, c9RideB, c9RideC])).1
          = [1, 3]
      ∧ specFittingInitialSegment 4 (sortByKey Ride.created_at [c9RideA, c9RideB, c9RideC]) 0
          = [1]
      ∧ ([1, 3] : List Nat) ≠ [1] := by
  refine ⟨by decide, by decide, by decide, by decide⟩

theorem selectRidesForCapacity_go (cap : ℤ) (l : List Ride) :
    ∀ (acc : List Nat) (sum : ℤ),
      (l.foldl
        (fun sel r =>
          if sel.2 + (r.passenger_count : ℤ) ≤ cap then
            (sel.1 ++ [r.id], sel.2 + (r.passenger_count : ℤ))
          else sel)
        (acc, sum)).1 = acc ++ greedySkipSelect cap l sum := by
  induction l with
  | nil => intro acc sum; simp [greedySkipSelect]
  | cons r rs ih =>
      intro acc sum
      rw [List.foldl_cons]
      by_cases hfit : sum + (r.passenger_count : ℤ) ≤ cap
      · rw [if_pos hfit]
        rw [ih (acc ++ [r.id]) (sum + (r.passenger_count : ℤ))]
        rw [greedySkipSelect]
        rw [if_pos hfit]
        simp
      · rw [if_neg hfit]
        rw [ih acc sum]
        rw [greedySkipSelect]
        rw [if_neg hfit]

/-- Claim C9, amended: `batchDispatch` searches for candidate drivers
with required capacity `min(cluster total, 4)` — so a driver with 4 free
seats is a candidate even for a cluster totalling more than 4 — and the
batch then contains the creation-ordered *skip-greedy subsequence* of the
cluster's rides: each ride in creation order is included exactly when it
still fits the running passenger sum, and a ride that does not fit is
skipped while the scan continues (not the longest fitting prefix). -/
theorem C9_amended_min_capacity_and_skip_greedy :
    (∀ (ev : Nat) (s : DB) (cl : RideCluster) (d : Driver), d ∈ s.drivers →
        eligibleDriverQuery ev d = true → 4 ≤ availableCapacity d →
        d ∈ findAvailableDriversWithCapacity ev (min cl.total_passengers 4 : Nat) s)
      ∧ ∀ (cap : ℤ) (l : List Ride),
          (selectRidesForCapacity cap l).1 = greedySkipSelect cap l 0 := by
  constructor
  · intro ev s cl d hmem helig hcap
    unfold findAvailableDriversWithCapacity
    refine List.mem_filter.mpr ⟨List.mem_filter.mpr ⟨hmem, helig⟩, ?_⟩
    have hle : ((min cl.total_passengers 4 : Nat) : ℤ) ≤ 4 := by
      have := min_le_right cl.total_passengers 4
      exact_mod_cast le_trans this (le_refl 4)
    simp only [decide_eq_true_eq]
    exact le_trans hle hcap
  · intro cap l
    unfold selectRidesForCapacity
    rw [selectRidesForCapacity_go cap l [] 0]
    rfl

/-- Claim C9, witness: the amended theorem instantiated — a driver with
4 free seats is a candidate for the 6-passenger cluster, and the select
fold equals the skip-greedy recursion on the [3, 2, 1] ride list. -/
theorem C9_amended_witness :
    c9Driver ∈ findAvailableDriversWithCapacity 1 (min c9Cluster.total_passengers 4 : Nat) c9DB
      ∧ (selectRidesForCapacity 4 [c9RideA, c9RideB, c9RideC]).1
          = greedySkipSelect 4 [c9RideA, c9RideB, c9RideC] 0 :=
  ⟨(C9_amended_min_capacity_and_skip_greedy).1 1 c9DB c9Cluster c9Driver (by decide)
      (by decide) (by decide),
    (C9_amended_min_capacity_and_skip_greedy).2 4 [c9RideA, c9RideB, c9RideC]⟩

/-! ## Fold lemmas for the dispatch scans -/

theorem strictCoord_iff (d : Driver) : strictCoord d = true ↔
    ∃ a b, d.current_lat = some a ∧ d.current_lng = some b ∧ a ≠ 0 ∧ b ≠ 0 := by
  unfold strictCoord
  constructor
  · intro h
    split at h
    · next a b heqa heqb =>
        simp only [Bool.and_eq_true, decide_eq_true_eq] at h
        exact ⟨a, b, heqa, heqb, h.1, h.2⟩
    · cases h
  · rintro ⟨a, b, hla, hlb, ha, hb⟩
    rw [hla, hlb]
    simp [ha, hb]

theorem nearestDriverStep_skip (hav : Hav) (pLat pLng : ℚ) (acc : Option (Driver × ℚ))
    (d : Driver) (hd : strictCoord d = false) :
    nearestDriverStep hav pLat pLng acc d = acc := by
  unfold nearestDriverStep
  split
  · next a b heqa heqb =>
      unfold strictCoord at hd
      rw [heqa, heqb] at hd
      simp only [Bool.and_eq_false_iff, decide_eq_false_iff_not, not_not] at hd
      rcases hd with ha | hb
      · rw [if_pos ha]
      · by_cases ha : a = 0
        · rw [if_pos ha]
        · rw [if_neg ha, if_pos hb]
  · rfl

theorem nearestDriverStep_take_none (hav : Hav) (pLat pLng : ℚ)
    (d : Driver) (a b : ℚ) (hla : d.current_lat = some a) (hlb : d.current_lng = some b)
    (ha : a ≠ 0) (hb : b ≠ 0) :
    nearestDriverStep hav pLat pLng none d = some (d, hav pLat pLng a b) := by
  unfold nearestDriverStep
  rw [hla, hlb]
  show (if a = 0 then none
      else if b = 0 then none
      else some (d, hav pLat pLng a b)) = some (d, hav pLat pLng a b)
  rw [if_neg ha, if_neg hb]

theorem nearestDriverStep_take_some (hav : Hav) (pLat pLng : ℚ) (e : Driver) (m : ℚ)
    (d : Driver) (a b : ℚ) (hla : d.current_lat = some a) (hlb : d.current_lng = some b)
    (ha : a ≠ 0) (hb : b ≠ 0) :
    nearestDriverStep hav pLat pLng (some (e, m)) d =
      if hav pLat pLng a b < m then some (d, hav pLat pLng a b) else some (e, m) := by
  unfold nearestDriverStep
  rw [hla, hlb]
  show (if a = 0 then some (e, m)
      else if b = 0 then some (e, m)
      else if hav pLat pLng a b < m then some (d, hav pLat pLng a b) else some (e, m)) = _
  rw [if_neg ha, if_neg hb]

theorem havOf_eq (hav : Hav) (pLat pLng : ℚ) (d : Driver) (a b : ℚ)
    (hla : d.current_lat = some a) (hlb : d.current_lng = some b) :
    havOf hav pLat pLng d = hav pLat pLng a b := by
  unfold havOf
  rw [hla, hlb]
  rfl

theorem foldl_nearest_none (hav : Hav) (pLat pLng : ℚ) (l : List Driver) :
    ∀ acc, l.foldl (nearestDriverStep hav pLat pLng) acc = none ↔
      (acc = none ∧ ∀ d ∈ l, strictCoord d = false) := by
  induction l with
  | nil => intro acc; simp
  | cons d ds ih =>
      intro acc
      rw [List.foldl_cons]
      rcases hsc : strictCoord d with _ | _
      · rw [nearestDriverStep_skip hav pLat pLng acc d hsc]
        rw [ih acc]
        constructor
        · intro ⟨h1, h2⟩
          exact ⟨h1, fun e he => by
            rcases List.mem_cons.mp he with rfl | he'
            · exact hsc
            · exact h2 e he'⟩
        · intro ⟨h1, h2⟩
          exact ⟨h1, fun e he => h2 e (List.mem_cons_of_mem _ he)⟩
      · obtain ⟨a, b, hla, hlb, ha, hb⟩ := (strictCoord_iff d).mp hsc
        constructor
        · intro hres
          exfalso
          rcases acc with _ | ⟨e, m⟩
          · rw [nearestDriverStep_take_none hav pLat pLng d a b hla hlb ha hb] at hres
            exact Option.noConfusion (((ih _).mp hres).1)
          · rw [nearestDriverStep_take_some hav pLat pLng e m d a b hla hlb ha hb] at hres
            have h1 := ((ih _).mp hres).1
            revert h1
            split <;> intro h1 <;> cases h1
        · intro ⟨_, h2⟩
          exact absurd hsc (by simp [h2 d (by simp)])

theorem foldl_nearest_some (hav : Hav) (pLat pLng : ℚ) (l : List Driver) :
    ∀ (acc : Option (Driver × ℚ)) (p : Driver × ℚ),
      l.foldl (nearestDriverStep hav pLat pLng) acc = some p →
      ((p.1 ∈ l ∧ strictCoord p.1 = true ∧ p.2 = havOf hav pLat pLng p.1) ∨ acc = some p)
        ∧ (∀ d ∈ l, strictCoord d = true → p.2 ≤ havOf hav pLat pLng d)
        ∧ (∀ q, acc = some q → p.2 ≤ q.2) := by
  induction l with
  | nil =>
      intro acc p hres
      refine ⟨Or.inr hres, by simp, ?_⟩
      intro q hq
      rw [hq] at hres
      cases hres
      exact le_refl _
  | cons d ds ih =>
      intro acc p hres
      rw [List.foldl_cons] at hres
      rcases hsc : strictCoord d with _ | _
      · rw [nearestDriverStep_skip hav pLat pLng acc d hsc] at hres
        obtain ⟨hmem, hmin, haccle⟩ := ih acc p hres
        refine ⟨?_, ?_, haccle⟩
        · rcases hmem with ⟨h1, h2, h3⟩ | h
          · exact Or.inl ⟨List.mem_cons_of_mem _ h1, h2, h3⟩
          · exact Or.inr h
        · intro e he hsce
          rcases List.mem_cons.mp he with rfl | he'
          · rw [hsce] at hsc; cases hsc
          · exact hmin e he' hsce
      · obtain ⟨a, b, hla, hlb, ha, hb⟩ := (strictCoord_iff d).mp hsc
        have hhd : havOf hav pLat pLng d = hav pLat pLng a b := havOf_eq hav pLat pLng d a b hla hlb
        rcases acc with _ | ⟨e, m⟩
        · rw [nearestDriverStep_take_none hav pLat pLng d a b hla hlb ha hb] at hres
          obtain ⟨hmem, hmin, haccle⟩ := ih (some (d, hav pLat pLng a b)) p hres
          have hdle : p.2 ≤ hav pLat pLng a b :=
            haccle (d, hav pLat pLng a b) rfl
          refine ⟨?_, ?_, by intro q hq; cases hq⟩
          · rcases hmem with ⟨h1, h2, h3⟩ | h
            · exact Or.inl ⟨List.mem_cons_of_mem _ h1, h2, h3⟩
            · cases h
              exact Or.inl ⟨by simp, hsc, hhd.symm⟩
          · intro e he hsce
            rcases List.mem_cons.mp he with rfl | he'
            · rw [hhd]; exact hdle
            · exact hmin e he' hsce
        · rw [nearestDriverStep_take_some hav pLat pLng e m d a b hla hlb ha hb] at hres
          by_cases hlt : hav pLat pLng a b < m
          · rw [if_pos hlt] at hres
            obtain ⟨hmem, hmin, haccle⟩ := ih (some (d, hav pLat pLng a b)) p hres
            have hdle : p.2 ≤ hav pLat pLng a b :=
              haccle (d, hav pLat pLng a b) rfl
            refine ⟨?_, ?_, ?_⟩
            · rcases hmem with ⟨h1, h2, h3⟩ | h
              · exact Or.inl ⟨List.mem_cons_of_mem _ h1, h2, h3⟩
              · cases h
                exact Or.inl ⟨by simp, hsc, hhd.symm⟩
            · intro e he hsce
              rcases List.mem_cons.mp he with rfl | he'
              · rw [hhd]; exact hdle
              · exact hmin e he' hsce
            · intro q hq
              cases hq
              exact le_trans hdle (le_of_lt hlt)
          · rw [if_neg hlt] at hres
            obtain ⟨hmem, hmin, haccle⟩ := ih (some (e, m)) p hres
            have hmle : p.2 ≤ m := haccle (e, m) rfl
            refine ⟨?_, ?_, ?_⟩
            · rcases hmem with ⟨h1, h2, h3⟩ | h
              · exact Or.inl ⟨List.mem_cons_of_mem _ h1, h2, h3⟩
              · exact Or.inr h
            · intro e2 he2 hsce
              rcases List.mem_cons.mp he2 with rfl | he'
              · rw [hhd]
                exact le_trans hmle (le_of_not_lt hlt)
              · exact hmin e2 he' hsce
            · intro q hq
              cases hq
              exact hmle

theorem oldestRideStep_ne_none (acc : Option Ride) (r : Ride) :
    oldestRideStep acc r ≠ none := by
  unfold oldestRideStep
  rcases acc with _ | b
  · simp
  · show (if r.created_at < b.created_at then some r else some b) ≠ none
    split <;> simp

theorem foldl_oldest_none (l : List Ride) :
    ∀ acc, l.foldl oldestRideStep acc = none ↔ (acc = none ∧ l = []) := by
  induction l with
  | nil => intro acc; simp
  | cons r rs ih =>
      intro acc
      rw [List.foldl_cons]
      constructor
      · intro hres
        exact absurd ((ih _).mp hres).1 (oldestRideStep_ne_none acc r)
      · intro ⟨_, h2⟩
        cases h2

theorem foldl_oldest_some (l : List Ride) :
    ∀ (acc : Option Ride) (c : Ride), l.foldl oldestRideStep acc = some c →
      (c ∈ l ∨ acc = some c)
        ∧ (∀ r ∈ l, c.created_at ≤ r.created_at)
        ∧ (∀ b, acc = some b → c.created_at ≤ b.created_at) := by
  induction l with
  | nil =>
      intro acc c hres
      refine ⟨Or.inr hres, by simp, ?_⟩
      intro b hb
      rw [hb] at hres
      cases hres
      exact le_refl _
  | cons r rs ih =>
      intro acc c hres
      rw [List.foldl_cons] at hres
      rcases acc with _ | b
      · have hstep : oldestRideStep none r = some r := rfl
        rw [hstep] at hres
        obtain ⟨hmem, hall, haccle⟩ := ih (some r) c hres
        have hcr : c.created_at ≤ r.created_at := haccle r rfl
        refine ⟨?_, ?_, by intro b hb; cases hb⟩
        · rcases hmem with h | h
          · exact Or.inl (List.mem_cons_of_mem _ h)
          · cases h
            exact Or.inl (by simp)
        · intro e he
          rcases List.mem_cons.mp he with rfl | he'
          · exact hcr
          · exact hall e he'
      · have hstep : oldestRideStep (some b) r =
            if r.created_at < b.created_at then some r else some b := rfl
        rw [hstep] at hres
        by_cases hlt : r.created_at < b.created_at
        · rw [if_pos hlt] at hres
          obtain ⟨hmem, hall, haccle⟩ := ih (some r) c hres
          have hcr : c.created_at ≤ r.created_at := haccle r rfl
          refine ⟨?_, ?_, ?_⟩
          · rcases hmem with h | h
            · exact Or.inl (List.mem_cons_of_mem _ h)
            · cases h
              exact Or.inl (by simp)
          · intro e he
            rcases List.mem_cons.mp he with rfl | he'
            · exact hcr
            · exact hall e he'
          · intro e he
            cases he
            omega
        · rw [if_neg hlt] at hres
          obtain ⟨hmem, hall, haccle⟩ := ih (some b) c hres
          have hcb : c.created_at ≤ b.created_at := haccle b rfl
          refine ⟨?_, ?_, ?_⟩
          · rcases hmem with h | h
            · exact Or.inl (List.mem_cons_of_mem _ h)
            · exact Or.inr h
          · intro e he
            rcases List.mem_cons.mp he with rfl | he'
            · omega
            · exact hall e he'
          · intro e he
            cases he
            exact hcb

/-! ## Query-level corollaries -/

theorem getOldestWaitingRide_none_iff (ev : Nat) (s : DB) :
    getOldestWaitingRide ev s = none ↔ countWaiting ev s = 0 := by
  unfold getOldestWaitingRide countWaiting
  rw [foldl_oldest_none]
  simp [List.length_eq_zero]

theorem getOldestWaitingRide_spec (ev : Nat) (s : DB) (c : Ride)
    (h : getOldestWaitingRide ev s = some c) :
    c ∈ s.rides ∧ waitingOf ev c = true
      ∧ ∀ r ∈ s.rides, waitingOf ev r = true → c.created_at ≤ r.created_at := by
  unfold getOldestWaitingRide at h
  obtain ⟨hmem, hall, _⟩ := foldl_oldest_some _ none c h
  rcases hmem with hmem | hmem
  · have := List.mem_filter.mp hmem
    exact ⟨this.1, this.2, fun r hr hw => hall r (List.mem_filter.mpr ⟨hr, hw⟩)⟩
  · cases hmem

theorem findNearestDriver_none_iff (hav : Hav) (ev : Nat) (pLat pLng : ℚ) (s : DB) :
    findNearestDriver hav ev pLat pLng s = none ↔
      ∀ d ∈ s.drivers, strictEligible ev d = false := by
  unfold findNearestDriver
  rw [foldl_nearest_none]
  simp only [true_and]
  constructor
  · intro h d hd
    unfold strictEligible
    rcases he : eligibleDriverQuery ev d with _ | _
    · rfl
    · rw [h d (List.mem_filter.mpr ⟨hd, he⟩)]
      rfl
  · intro h d hd
    have := List.mem_filter.mp hd
    have h2 := h d this.1
    unfold strictEligible at h2
    rw [this.2] at h2
    simpa using h2

theorem findNearestDriver_spec (hav : Hav) (ev : Nat) (pLat pLng : ℚ) (s : DB)
    (d : Driver) (dist : ℚ) (h : findNearestDriver hav ev pLat pLng s = some (d, dist)) :
    d ∈ s.drivers ∧ strictEligible ev d = true ∧ dist = havOf hav pLat pLng d
      ∧ ∀ e ∈ s.drivers, strictEligible ev e = true → dist ≤ havOf hav pLat pLng e := by
  unfold findNearestDriver at h
  obtain ⟨hmem, hmin, _⟩ := foldl_nearest_some hav pLat pLng _ none (d, dist) h
  rcases hmem with ⟨h1, h2, h3⟩ | h1
  · have hm := List.mem_filter.mp h1
    refine ⟨hm.1, ?_, h3, ?_⟩
    · unfold strictEligible
      rw [hm.2, h2]
      rfl
    · intro e he hse
      unfold strictEligible at hse
      simp only [Bool.and_eq_true] at hse
      exact hmin e (List.mem_filter.mpr ⟨he, hse.1⟩) hse.2
  · cases h1

/-! ## `smartDispatch` characterization -/

/-- Well-formedness: primary keys are unique. -/
def dispatchWF (s : DB) : Prop :=
  (s.rides.map Ride.id).Nodup ∧ (s.drivers.map Driver.id).Nodup

theorem waitingOf_status (ev : Nat) (r : Ride) (h : waitingOf ev r = true) :
    r.status = .waiting := by
  unfold waitingOf at h
  simp only [Bool.and_eq_true, beq_iff_eq] at h
  exact h.2

theorem smartDispatch_assigned_shape (hav : Hav) (ev : Nat) (s : DB)
    (hwf : dispatchWF s) (ride : Ride) (drv : Driver) (dist : ℚ)
    (hor : getOldestWaitingRide ev s = some ride)
    (hnd : findNearestDriver hav ev ride.pickup_lat ride.pickup_lng s = some (drv, dist)) :
    smartDispatch hav ev s =
      ({ assigned := true, rideId := some ride.id, driverId := some drv.id
         distance := some dist },
        { s with
          rides := updateRideById ride.id
            (fun r =>
              { r with
                assigned_driver_id := some drv.id
                status := .assigned
                driver_eta_minutes :=
                  (if dist = 0 then none else some ⌈dist / 30 * 60⌉ : Option ℤ).orElse
                    fun _ => r.driver_eta_minutes })
            s.rides
          drivers := updateDriverById drv.id
            (fun d => { d with current_status := .assigned }) s.drivers }) := by
  obtain ⟨hmem, hwait, _⟩ := getOldestWaitingRide_spec ev s ride hor
  have hfr : s.findRide ride.id = some ride := find?_of_nodup Ride.id s.rides ride hwf.1 hmem
  have hst : ride.status = .waiting := waitingOf_status ev ride hwait
  unfold smartDispatch
  simp only [hor, hnd]
  unfold assignDriverToRide
  simp only [hfr, hst]
  rw [if_pos (show isValidTransition RideStatus.waiting RideStatus.assigned = true from rfl)]

theorem updateBy_nodup (key : α → Nat) (k : Nat) (f : α → α)
    (hf : ∀ x, key (f x) = key x) (l : List α) (h : (l.map key).Nodup) :
    ((updateBy key k f l).map key).Nodup := by
  rw [updateBy_map_key key k f hf]
  exact h

theorem countWaiting_eq_countP (ev : Nat) (s : DB) :
    countWaiting ev s = s.rides.countP (waitingOf ev) := by
  unfold countWaiting
  rw [List.countP_eq_length_filter]

theorem countEligibleStrict_eq_countP (ev : Nat) (s : DB) :
    countEligibleStrict ev s = s.drivers.countP (strictEligible ev) := by
  unfold countEligibleStrict
  rw [List.countP_eq_length_filter]

theorem smartDispatch_fail (hav : Hav) (ev : Nat) (s : DB) (res : DispatchResult) (s1 : DB)
    (hwf : dispatchWF s) (h : smartDispatch hav ev s = (res, s1))
    (hf : res.assigned = false) :
    s1 = s ∧ min (countWaiting ev s) (countEligibleStrict ev s) = 0 := by
  rcases hor : getOldestWaitingRide ev s with _ | ride
  · have hrun : smartDispatch hav ev s = ({ assigned := false }, s) := by
      unfold smartDispatch
      simp only [hor]
    rw [hrun] at h
    obtain ⟨_, hs1⟩ := Prod.mk.inj h
    have hw0 : countWaiting ev s = 0 := (getOldestWaitingRide_none_iff ev s).mp hor
    exact ⟨hs1.symm, by omega⟩
  · rcases hnd : findNearestDriver hav ev ride.pickup_lat ride.pickup_lng s with _ | ⟨drv, dist⟩
    · have hrun : smartDispatch hav ev s = ({ assigned := false }, s) := by
        unfold smartDispatch
        simp only [hor, hnd]
      rw [hrun] at h
      obtain ⟨_, hs1⟩ := Prod.mk.inj h
      have he0 : countEligibleStrict ev s = 0 := by
        unfold countEligibleStrict
        rw [List.length_eq_zero, List.filter_eq_nil_iff]
        intro d hd
        rw [(findNearestDriver_none_iff hav ev ride.pickup_lat ride.pickup_lng s).mp hnd d hd]
        simp
      exact ⟨hs1.symm, by omega⟩
    · have hshape := smartDispatch_assigned_shape hav ev s hwf ride drv dist hor hnd
      rw [hshape] at h
      obtain ⟨hres, _⟩ := Prod.mk.inj h
      rw [← hres] at hf
      cases hf

theorem smartDispatch_assigned (hav : Hav) (ev : Nat) (s : DB) (res : DispatchResult)
    (s1 : DB) (hwf : dispatchWF s) (h : smartDispatch hav ev s = (res, s1))
    (ht : res.assigned = true) :
    countWaiting ev s1 = countWaiting ev s - 1 ∧ 0 < countWaiting ev s
      ∧ countEligibleStrict ev s1 = countEligibleStrict ev s - 1
      ∧ 0 < countEligibleStrict ev s ∧ dispatchWF s1 := by
  rcases hor : getOldestWaitingRide ev s with _ | ride
  · exfalso
    have hrun : smartDispatch hav ev s = ({ assigned := false }, s) := by
      unfold smartDispatch
      simp only [hor]
    rw [hrun] at h
    obtain ⟨hres, _⟩ := Prod.mk.inj h
    rw [← hres] at ht
    cases ht
  · rcases hnd : findNearestDriver hav ev ride.pickup_lat ride.pickup_lng s with _ | ⟨drv, dist⟩
    · exfalso
      have hrun : smartDispatch hav ev s = ({ assigned := false }, s) := by
        unfold smartDispatch
        simp only [hor, hnd]
      rw [hrun] at h
      obtain ⟨hres, _⟩ := Prod.mk.inj h
      rw [← hres] at ht
      cases ht
    · have hshape := smartDispatch_assigned_shape hav ev s hwf ride drv dist hor hnd
      rw [hshape] at h
      obtain ⟨_, hs1⟩ := Prod.mk.inj h
      obtain ⟨hrmem, hrwait, _⟩ := getOldestWaitingRide_spec ev s ride hor
      obtain ⟨hdmem, hdstrict, _, _⟩ := findNearestDriver_spec hav ev _ _ s drv dist hnd
      subst hs1
      refine ⟨?_, ?_, ?_, ?_, ?_⟩
      · rw [countWaiting_eq_countP, countWaiting_eq_countP]
        show (updateBy Ride.id ride.id _ s.rides).countP (waitingOf ev) = _
        have hkey : ride.id = Ride.id ride := rfl
        rw [hkey]
        have hcnt := countP_updateBy Ride.id
          (fun r =>
            ({ r with
              assigned_driver_id := some drv.id
              status := .assigned
              driver_eta_minutes :=
                (if dist = 0 then none else some ⌈dist / 30 * 60⌉ : Option ℤ).orElse
                  fun _ => r.driver_eta_minutes } : Ride))
          (waitingOf ev) s.rides ride hwf.1 hrmem
        rw [hrwait] at hcnt
        have hafter : waitingOf ev
            ({ ride with
              assigned_driver_id := some drv.id
              status := .assigned
              driver_eta_minutes :=
                (if dist = 0 then none else some ⌈dist / 30 * 60⌉ : Option ℤ).orElse
                  fun _ => ride.driver_eta_minutes } : Ride) = false := by
          unfold waitingOf
          simp
        rw [hafter] at hcnt
        simp at hcnt
        omega
      · rw [countWaiting_eq_countP]
        exact List.countP_pos_iff.mpr ⟨ride, hrmem, hrwait⟩
      · rw [countEligibleStrict_eq_countP, countEligibleStrict_eq_countP]
        show (updateBy Driver.id drv.id _ s.drivers).countP (strictEligible ev) = _
        have hkey : drv.id = Driver.id drv := rfl
        rw [hkey]
        have hcnt := countP_updateBy Driver.id
          (fun d => ({ d with current_status := .assigned } : Driver))
          (strictEligible ev) s.drivers drv hwf.2 hdmem
        rw [hdstrict] at hcnt
        have hafter : strictEligible ev ({ drv with current_status := .assigned } : Driver)
            = false := by
          unfold strictEligible eligibleDriverQuery
          simp
        rw [hafter] at hcnt
        simp at hcnt
        omega
      · rw [countEligibleStrict_eq_countP]
        exact List.countP_pos_iff.mpr ⟨drv, hdmem, hdstrict⟩
      · exact ⟨updateBy_nodup Ride.id ride.id _ (by intro x; rfl) s.rides hwf.1,
          updateBy_nodup Driver.id drv.id _ (by intro x; rfl) s.drivers hwf.2⟩

theorem dispatchLoop_spec (hav : Hav) (ev : Nat) :
    ∀ (fuel : Nat) (s : DB) (acc : Nat), dispatchWF s →
      min (countWaiting ev s) (countEligibleStrict ev s) < fuel →
      (dispatchLoop hav ev fuel s acc).1
          = acc + min (countWaiting ev s) (countEligibleStrict ev s)
        ∧ dispatchWF (dispatchLoop hav ev fuel s acc).2
        ∧ min (countWaiting ev (dispatchLoop hav ev fuel s acc).2)
            (countEligibleStrict ev (dispatchLoop hav ev fuel s acc).2) = 0 := by
  intro fuel
  induction fuel with
  | zero => intro s acc _ hlt; omega
  | succ fuel ih =>
      intro s acc hwf hlt
      rcases hsd : smartDispatch hav ev s with ⟨res, s1⟩
      have hstep : dispatchLoop hav ev (fuel + 1) s acc =
          if res.assigned then dispatchLoop hav ev fuel s1 (acc + 1) else (acc, s1) := by
        have hdef : dispatchLoop hav ev (fuel + 1) s acc =
            (match smartDispatch hav ev s with
              | (r, t) => if r.assigned then dispatchLoop hav ev fuel t (acc + 1)
                  else (acc, t)) := rfl
        rw [hdef, hsd]
      rcases hass : res.assigned with _ | _
      · obtain ⟨hs1, hmin⟩ := smartDispatch_fail hav ev s res s1 hwf hsd hass
        rw [hstep, if_neg (by simp [hass])]
        refine ⟨?_, ?_, ?_⟩
        · show acc = acc + min (countWaiting ev s) (countEligibleStrict ev s)
          omega
        · show dispatchWF s1
          rw [hs1]
          exact hwf
        · show min (countWaiting ev s1) (countEligibleStrict ev s1) = 0
          rw [hs1]
          omega
      · obtain ⟨hw, hw0, he, he0, hwf1⟩ := smartDispatch_assigned hav ev s res s1 hwf hsd hass
        have hlt1 : min (countWaiting ev s1) (countEligibleStrict ev s1) < fuel := by omega
        obtain ⟨h1, h2, h3⟩ := ih s1 (acc + 1) hwf1 hlt1
        rw [hstep, if_pos (by simp [hass])]
        refine ⟨?_, h2, h3⟩
        rw [h1]
        omega

/-! ## Claim C3 — dispatch-all termination and exhaustion -/

def c3Ride : Ride :=
  { id := 1, event_id := 1, pickup_lat := 7, pickup_lng := 7, passenger_count := 2
    status := .waiting, created_at := 100 }

def c3Driver : Driver :=
  { id := 2, event_id := 1, is_online := true, current_status := .available
    current_lat := some 0, current_lng := some 5 }

def c3DB : DB := { rides := [c3Ride], drivers := [c3Driver], next_id := 40 }

/-- Claim C3, counterexample: one waiting ride and one online available
driver with *known* (non-null) coordinates — but its stored latitude is
exactly 0, which the dispatch loop's JS-truthiness guard skips.
`dispatchAllRides` therefore assigns 0 rides, not `min(1, 1) = 1` as the
claim states. -/
theorem C3_counterexample :
    countWaiting 1 c3DB = 1
      ∧ (c3DB.drivers.filter (eligibleDriverQuery 1)).length = 1
      ∧ (dispatchAllRides havZero 1 c3DB).1 = 0 := by
  refine ⟨by decide, by decide, by decide⟩

/-- Claim C3, amended: for an event with N waiting rides and M online,
available drivers whose known coordinates are both *nonzero* (the loop's
JS-truthiness guard skips a driver whose stored latitude or longitude
equals 0), a single `dispatchAllRides` call terminates and assigns
exactly `min(N, M)` rides — each assigning iteration consumes one
waiting ride and one such driver — and a second call immediately
afterwards assigns 0 rides. -/
theorem C3_amended_dispatch_exhaustion (hav : Hav) (ev : Nat) (s : DB)
    (hwf : dispatchWF s) :
    (dispatchAllRides hav ev s).1
        = min (countWaiting ev s) (countEligibleStrict ev s)
      ∧ (dispatchAllRides hav ev (dispatchAllRides hav ev s).2).1 = 0 := by
  obtain ⟨h1, h2, h3⟩ := dispatchLoop_spec hav ev (countWaiting ev s + 1) s 0 hwf (by omega)
  have hds : dispatchAllRides hav ev s = dispatchLoop hav ev (countWaiting ev s + 1) s 0 := rfl
  constructor
  · rw [hds, h1]
    omega
  · rw [hds]
    obtain ⟨g1, _, _⟩ := dispatchLoop_spec hav ev
      (countWaiting ev (dispatchLoop hav ev (countWaiting ev s + 1) s 0).2 + 1)
      (dispatchLoop hav ev (countWaiting ev s + 1) s 0).2 0 h2 (by omega)
    rw [show dispatchAllRides hav ev (dispatchLoop hav ev (countWaiting ev s + 1) s 0).2
        = dispatchLoop hav ev
            (countWaiting ev (dispatchLoop hav ev (countWaiting ev s + 1) s 0).2 + 1)
            (dispatchLoop hav ev (countWaiting ev s + 1) s 0).2 0 from rfl, g1]
    omega

def c3wRide : Ride :=
  { id := 1, event_id := 1, pickup_lat := 7, pickup_lng := 7, passenger_count := 2
    status := .waiting, created_at := 100 }

def c3wDriver : Driver :=
  { id := 2, event_id := 1, is_online := true, current_status := .available
    current_lat := some 3, current_lng := some 4 }

def c3wDB : DB := { rides := [c3wRide], drivers := [c3wDriver], next_id := 40 }

/-- Claim C3, witness: the amended exhaustion theorem instantiated at a
concrete store with one waiting ride and one nonzero-coordinate driver. -/
theorem C3_amended_witness :
    (dispatchAllRides havZero 1 c3wDB).1
        = min (countWaiting 1 c3wDB) (countEligibleStrict 1 c3wDB)
      ∧ (dispatchAllRides havZero 1 (dispatchAllRides havZero 1 c3wDB).2).1 = 0 :=
  C3_amended_dispatch_exhaustion havZero 1 c3wDB ⟨by decide, by decide⟩

/-! ## Claim C7 — `smartDispatch` selection and effects -/

def rideStatusIn (s : DB) (rid : Nat) : Option RideStatus :=
  (s.findRide rid).map Ride.status

def rideDriverIn (s : DB) (rid : Nat) : Option (Option Nat) :=
  (s.findRide rid).map Ride.assigned_driver_id

def driverStatusIn (s : DB) (did : Nat) : Option DriverStatus :=
  (s.findDriver did).map Driver.current_status

def c7Ride : Ride :=
  { id := 1, event_id := 1, pickup_lat := 8, pickup_lng := 8, passenger_count := 1
    status := .waiting, created_at := 50 }

def c7Driver : Driver :=
  { id := 5, event_id := 1, is_online := true, current_status := .available
    current_lat := some 0, current_lng := some 9 }

def c7DB : DB := { rides := [c7Ride], drivers := [c7Driver], next_id := 30 }

/-- Claim C7, counterexample: one waiting ride and one online, available
driver with known (non-null) coordinates.  The claim says `smartDispatch`
selects that driver; the code no-ops (no write, `assigned = false`)
because the driver's stored latitude is exactly 0 and the JS-truthiness
guard in the nearest-driver loop skips it. -/
theorem C7_counterexample :
    (c7DB.drivers.filter (eligibleDriverQuery 1)).length = 1
      ∧ countWaiting 1 c7DB = 1
      ∧ (smartDispatch havZero 1 c7DB).1.assigned = false
      ∧ (smartDispatch havZero 1 c7DB).2 = c7DB := by
  refine ⟨by decide, by decide, by decide, by decide⟩

/-- Claim C7, amended: `smartDispatch` is a no-op (no write, `assigned =
false`, no error) when the event has no waiting ride, and likewise when
it has no online available driver with known *nonzero* coordinates (the
JS-truthiness guard skips zero coordinates); on success it picks a
waiting ride of minimal creation time and, among the strictly-eligible
drivers, one at minimal oracle distance from the pickup, writes
`status := assigned` and `assigned_driver_id` onto that ride, and sets
that driver's status to `assigned`. -/
theorem C7_amended_smart_dispatch (hav : Hav) (ev : Nat) (s : DB)
    (res : DispatchResult) (s1 : DB) (hwf : dispatchWF s)
    (hrun : smartDispatch hav ev s = (res, s1)) :
    ((∀ r ∈ s.rides, waitingOf ev r = false) → res.assigned = false ∧ s1 = s)
      ∧ ((∀ d ∈ s.drivers, strictEligible ev d = false) → res.assigned = false ∧ s1 = s)
      ∧ (res.assigned = true →
          ∃ ride drv, ride ∈ s.rides ∧ waitingOf ev ride = true
            ∧ (∀ r ∈ s.rides, waitingOf ev r = true → ride.created_at ≤ r.created_at)
            ∧ drv ∈ s.drivers ∧ strictEligible ev drv = true
            ∧ (∀ e ∈ s.drivers, strictEligible ev e = true →
                havOf hav ride.pickup_lat ride.pickup_lng drv
                  ≤ havOf hav ride.pickup_lat ride.pickup_lng e)
            ∧ res.rideId = some ride.id ∧ res.driverId = some drv.id
            ∧ rideStatusIn s1 ride.id = some .assigned
            ∧ rideDriverIn s1 ride.id = some (some drv.id)
            ∧ driverStatusIn s1 drv.id = some .assigned) := by
  refine ⟨?_, ?_, ?_⟩
  · intro hall
    have hor : getOldestWaitingRide ev s = none := by
      rw [getOldestWaitingRide_none_iff]
      unfold countWaiting
      rw [List.length_eq_zero, List.filter_eq_nil_iff]
      intro r hr
      rw [hall r hr]
      simp
    have hrunf : smartDispatch hav ev s = ({ assigned := false }, s) := by
      unfold smartDispatch
      simp only [hor]
    rw [hrunf] at hrun
    obtain ⟨h1, h2⟩ := Prod.mk.inj hrun
    exact ⟨by rw [← h1], h2.symm⟩
  · intro hall
    rcases hor : getOldestWaitingRide ev s with _ | ride
    · have hrunf : smartDispatch hav ev s = ({ assigned := false }, s) := by
        unfold smartDispatch
        simp only [hor]
      rw [hrunf] at hrun
      obtain ⟨h1, h2⟩ := Prod.mk.inj hrun
      exact ⟨by rw [← h1], h2.symm⟩
    · have hnd : findNearestDriver hav ev ride.pickup_lat ride.pickup_lng s = none :=
        (findNearestDriver_none_iff hav ev ride.pickup_lat ride.pickup_lng s).mpr hall
      have hrunf : smartDispatch hav ev s = ({ assigned := false }, s) := by
        unfold smartDispatch
        simp only [hor, hnd]
      rw [hrunf] at hrun
      obtain ⟨h1, h2⟩ := Prod.mk.inj hrun
      exact ⟨by rw [← h1], h2.symm⟩
  · intro ht
    rcases hor : getOldestWaitingRide ev s with _ | ride
    · exfalso
      have hrunf : smartDispatch hav ev s = ({ assigned := false }, s) := by
        unfold smartDispatch
        simp only [hor]
      rw [hrunf] at hrun
      obtain ⟨h1, _⟩ := Prod.mk.inj hrun
      rw [← h1] at ht
      cases ht
    · rcases hnd : findNearestDriver hav ev ride.pickup_lat ride.pickup_lng s
        with _ | ⟨drv, dist⟩
      · exfalso
        have hrunf : smartDispatch hav ev s = ({ assigned := false }, s) := by
          unfold smartDispatch
          simp only [hor, hnd]
        rw [hrunf] at hrun
        obtain ⟨h1, _⟩ := Prod.mk.inj hrun
        rw [← h1] at ht
        cases ht
      · have hshape := smartDispatch_assigned_shape hav ev s hwf ride drv dist hor hnd
        rw [hshape] at hrun
        obtain ⟨hres, hs1⟩ := Prod.mk.inj hrun
        obtain ⟨hrmem, hrwait, hroldest⟩ := getOldestWaitingRide_spec ev s ride hor
        obtain ⟨hdmem, hdstrict, _, hdnearest⟩ :=
          findNearestDriver_spec hav ev ride.pickup_lat ride.pickup_lng s drv dist hnd
        have hfr : s.findRide ride.id = some ride :=
          find?_of_nodup Ride.id s.rides ride hwf.1 hrmem
        have hfd : s.findDriver drv.id = some drv :=
          find?_of_nodup Driver.id s.drivers drv hwf.2 hdmem
        refine ⟨ride, drv, hrmem, hrwait, hroldest, hdmem, hdstrict, ?_, ?_, ?_, ?_, ?_, ?_⟩
        · intro e he hse
          obtain ⟨_, _, hdist, hmin⟩ :=
            findNearestDriver_spec hav ev ride.pickup_lat ride.pickup_lng s drv dist hnd
          rw [← hdist]
          exact hmin e he hse
        · rw [← hres]
        · rw [← hres]
        · unfold rideStatusIn
          rw [← hs1]
          show ((updateRideById ride.id _ s.rides).find? fun r => r.id == ride.id).map
            Ride.status = some RideStatus.assigned
          rw [updateRideById, find?_updateBy Ride.id ride.id _ (by intro x; rfl)]
          show ((s.findRide ride.id).map _).map Ride.status = _
          rw [hfr]
          rfl
        · unfold rideDriverIn
          rw [← hs1]
          show ((updateRideById ride.id _ s.rides).find? fun r => r.id == ride.id).map
            Ride.assigned_driver_id = some (some drv.id)
          rw [updateRideById, find?_updateBy Ride.id ride.id _ (by intro x; rfl)]
          show ((s.findRide ride.id).map _).map Ride.assigned_driver_id = _
          rw [hfr]
          rfl
        · unfold driverStatusIn
          rw [← hs1]
          show ((updateDriverById drv.id _ s.drivers).find? fun d => d.id == drv.id).map
            Driver.current_status = some DriverStatus.assigned
          rw [updateDriverById, find?_updateBy Driver.id drv.id _ (by intro x; rfl)]
          show ((s.findDriver drv.id).map _).map Driver.current_status = _
          rw [hfd]
          rfl

def c7wRide : Ride :=
  { id := 1, event_id := 1, pickup_lat := 8, pickup_lng := 8, passenger_count := 1
    status := .waiting, created_at := 50 }

def c7wDriver : Driver :=
  { id := 2, event_id := 1, is_online := true, current_status := .available
    current_lat := some 3, current_lng := some 4 }

def c7wDB : DB := { rides := [c7wRide], drivers := [c7wDriver], next_id := 30 }

/-- Claim C7, witness: the amended theorem instantiated at a concrete
store with one waiting ride and one strictly-eligible driver. -/
theorem C7_amended_witness :
    ((∀ r ∈ c7wDB.rides, waitingOf 1 r = false) →
        (smartDispatch havZero 1 c7wDB).1.assigned = false
          ∧ (smartDispatch havZero 1 c7wDB).2 = c7wDB)
      ∧ ((∀ d ∈ c7wDB.drivers, strictEligible 1 d = false) →
          (smartDispatch havZero 1 c7wDB).1.assigned = false
            ∧ (smartDispatch havZero 1 c7wDB).2 = c7wDB)
      ∧ ((smartDispatch havZero 1 c7wDB).1.assigned = true →
          ∃ ride drv, ride ∈ c7wDB.rides ∧ waitingOf 1 ride = true
            ∧ (∀ r ∈ c7wDB.rides, waitingOf 1 r = true → ride.created_at ≤ r.created_at)
            ∧ drv ∈ c7wDB.drivers ∧ strictEligible 1 drv = true
            ∧ (∀ e ∈ c7wDB.drivers, strictEligible 1 e = true →
                havOf havZero ride.pickup_lat ride.pickup_lng drv
                  ≤ havOf havZero ride.pickup_lat ride.pickup_lng e)
            ∧ (smartDispatch havZero 1 c7wDB).1.rideId = some ride.id
            ∧ (smartDispatch havZero 1 c7wDB).1.driverId = some drv.id
            ∧ rideStatusIn (smartDispatch havZero 1 c7wDB).2 ride.id = some .assigned
            ∧ rideDriverIn (smartDispatch havZero 1 c7wDB).2 ride.id = some (some drv.id)
            ∧ driverStatusIn (smartDispatch havZero 1 c7wDB).2 drv.id = some .assigned) :=
  C7_amended_smart_dispatch havZero 1 c7wDB _ _ ⟨by decide, by decide⟩ rfl

/-! ## Claim C10 — the stamped ETA formula and the zero-distance quirk -/

/-- Claim C10: when `smartDispatch` assigns a ride, the stamped
`driver_eta_minutes` equals `ceil(distanceKm / 30 * 60)` (no 1.2 traffic
buffer, no clamping) whenever the nearest driver's distance is nonzero;
when the distance is exactly 0 the ride is still assigned but
`driver_eta_minutes` is left untouched (JS truthiness treats the 0
distance as absent, and a JSON body drops the `undefined` member). -/
theorem C10_eta_from_distance (hav : Hav) (ev : Nat) (s : DB)
    (res : DispatchResult) (s1 : DB) (hwf : dispatchWF s)
    (hrun : smartDispatch hav ev s = (res, s1)) (ht : res.assigned = true) :
    ∃ rid dist r r2, res.rideId = some rid ∧ res.distance = some dist
      ∧ s.findRide rid = some r ∧ s1.findRide rid = some r2
      ∧ r2.status = .assigned
      ∧ (dist ≠ 0 → r2.driver_eta_minutes = some ⌈dist / 30 * 60⌉)
      ∧ (dist = 0 → r2.driver_eta_minutes = r.driver_eta_minutes) := by
  rcases hor : getOldestWaitingRide ev s with _ | ride
  · exfalso
    have hrunf : smartDispatch hav ev s = ({ assigned := false }, s) := by
      unfold smartDispatch
      simp only [hor]
    rw [hrunf] at hrun
    obtain ⟨h1, _⟩ := Prod.mk.inj hrun
    rw [← h1] at ht
    cases ht
  · rcases hnd : findNearestDriver hav ev ride.pickup_lat ride.pickup_lng s
      with _ | ⟨drv, dist⟩
    · exfalso
      have hrunf : smartDispatch hav ev s = ({ assigned := false }, s) := by
        unfold smartDispatch
        simp only [hor, hnd]
      rw [hrunf] at hrun
      obtain ⟨h1, _⟩ := Prod.mk.inj hrun
      rw [← h1] at ht
      cases ht
    · have hshape := smartDispatch_assigned_shape hav ev s hwf ride drv dist hor hnd
      rw [hshape] at hrun
      obtain ⟨hres, hs1⟩ := Prod.mk.inj hrun
      obtain ⟨hrmem, _, _⟩ := getOldestWaitingRide_spec ev s ride hor
      have hfr : s.findRide ride.id = some ride :=
        find?_of_nodup Ride.id s.rides ride hwf.1 hrmem
      refine ⟨ride.id, dist, ride,
        { ride with
          assigned_driver_id := some drv.id
          status := .assigned
          driver_eta_minutes :=
            (if dist = 0 then none else some ⌈dist / 30 * 60⌉ : Option ℤ).orElse
              fun _ => ride.driver_eta_minutes },
        by rw [← hres], by rw [← hres], hfr, ?_, rfl, ?_, ?_⟩
      · rw [← hs1]
        show ((updateRideById ride.id _ s.rides).find? fun r => r.id == ride.id) = _
        rw [updateRideById, find?_updateBy Ride.id ride.id _ (by intro x; rfl)]
        show (s.findRide ride.id).map _ = _
        rw [hfr]
        rfl
      · intro hne
        show ((if dist = 0 then none else some ⌈dist / 30 * 60⌉ : Option ℤ).orElse
            fun _ => ride.driver_eta_minutes) = some ⌈dist / 30 * 60⌉
        rw [if_neg hne]
        rfl
      · intro heq
        show ((if dist = 0 then none else some ⌈dist / 30 * 60⌉ : Option ℤ).orElse
            fun _ => ride.driver_eta_minutes) = ride.driver_eta_minutes
        rw [if_pos heq]
        rfl

def c10Ride : Ride :=
  { id := 3, event_id := 2, pickup_lat := 6, pickup_lng := 6, passenger_count := 1
    status := .waiting, created_at := 10 }

def c10Driver : Driver :=
  { id := 4, event_id := 2, is_online := true, current_status := .available
    current_lat := some 5, current_lng := some 5 }

def c10DB : DB := { rides := [c10Ride], drivers := [c10Driver], next_id := 20 }

/-- Claim C10, witness: the theorem applied to a concrete store twice —
once with a distance oracle returning 1 (nonzero-distance branch) and
once with one returning 0 (zero-distance branch). -/
theorem C10_witness :
    (∃ rid dist r r2, (smartDispatch havOne 2 c10DB).1.rideId = some rid
        ∧ (smartDispatch havOne 2 c10DB).1.distance = some dist
        ∧ c10DB.findRide rid = some r
        ∧ (smartDispatch havOne 2 c10DB).2.findRide rid = some r2
        ∧ r2.status = .assigned
        ∧ (dist ≠ 0 → r2.driver_eta_minutes = some ⌈dist / 30 * 60⌉)
        ∧ (dist = 0 → r2.driver_eta_minutes = r.driver_eta_minutes))
      ∧ (∃ rid dist r r2, (smartDispatch havZero 2 c10DB).1.rideId = some rid
          ∧ (smartDispatch havZero 2 c10DB).1.distance = some dist
          ∧ c10DB.findRide rid = some r
          ∧ (smartDispatch havZero 2 c10DB).2.findRide rid = some r2
          ∧ r2.status = .assigned
          ∧ (dist ≠ 0 → r2.driver_eta_minutes = some ⌈dist / 30 * 60⌉)
          ∧ (dist = 0 → r2.driver_eta_minutes = r.driver_eta_minutes)) :=
  ⟨C10_eta_from_distance havOne 2 c10DB _ _ ⟨by decide, by decide⟩ rfl (by decide),
    C10_eta_from_distance havZero 2 c10DB _ _ ⟨by decide, by decide⟩ rfl (by decide)⟩

/-! ## Claim C6 — pickup order indices and cumulative ETAs -/

theorem nearestIdxGo_lt (hav : Hav) (cLat cLng : ℚ) :
    ∀ (l : List Stop) (i best : Nat) (bestD : ℚ), best < i →
      nearestIdxGo hav cLat cLng l i best bestD < i + l.length := by
  intro l
  induction l with
  | nil =>
      intro i best bestD h
      unfold nearestIdxGo
      simpa using h
  | cons st rest ih =>
      intro i best bestD h
      unfold nearestIdxGo
      show (if hav cLat cLng st.pickup_lat st.pickup_lng < bestD then
          nearestIdxGo hav cLat cLng rest (i + 1) i
            (hav cLat cLng st.pickup_lat st.pickup_lng)
        else nearestIdxGo hav cLat cLng rest (i + 1) best bestD) < i + (st :: rest).length
      split
      · have := ih (i + 1) i (hav cLat cLng st.pickup_lat st.pickup_lng) (by omega)
        simp only [List.length_cons]
        omega
      · have := ih (i + 1) best bestD (by omega)
        simp only [List.length_cons]
        omega

theorem nearestIdxIn_lt (hav : Hav) (cLat cLng : ℚ) (hd : Stop) (tl : List Stop) :
    nearestIdxIn hav cLat cLng (hd :: tl) < (hd :: tl).length := by
  unfold nearestIdxIn
  have := nearestIdxGo_lt hav cLat cLng tl 1 0
    (hav cLat cLng hd.pickup_lat hd.pickup_lng) (by omega)
  simp only [List.length_cons]
  omega

theorem chain_to_chain' {R : Nat → Nat → Prop} {a : Nat} {l : List Nat}
    (h : List.Chain R a l) : List.Chain' R l := by
  cases h with
  | nil => trivial
  | cons hr htail => exact htail

theorem calcOrderGo_spec (hav : Hav) (eta : Eta) :
    ∀ (fuel : Nat) (remaining : List Stop) (cLat cLng : ℚ) (cum ord : Nat),
      remaining.length ≤ fuel →
      (calcOrderGo hav eta fuel remaining cLat cLng cum ord).map OrderEntry.order
          = List.range' ord remaining.length
        ∧ List.Chain (· ≤ ·) cum
            ((calcOrderGo hav eta fuel remaining cLat cLng cum ord).map OrderEntry.eta_minutes)
        ∧ ((calcOrderGo hav eta fuel remaining cLat cLng cum ord).map OrderEntry.ride_id).Perm
            (remaining.map Stop.id) := by
  intro fuel
  induction fuel with
  | zero =>
      intro remaining cLat cLng cum ord hlen
      have hnil : remaining = [] := List.length_eq_zero.mp (by omega)
      subst hnil
      exact ⟨rfl, List.Chain.nil, List.Perm.refl _⟩
  | succ fuel ih =>
      intro remaining cLat cLng cum ord hlen
      rcases hrem : remaining with _ | ⟨hd, tl⟩
      · exact ⟨rfl, List.Chain.nil, List.Perm.refl _⟩
      · subst hrem
        have hidx := nearestIdxIn_lt hav cLat cLng hd tl
        have hget : (hd :: tl)[nearestIdxIn hav cLat cLng (hd :: tl)]?
            = some (((hd :: tl).get ⟨nearestIdxIn hav cLat cLng (hd :: tl), hidx⟩)) :=
          List.getElem?_eq_getElem hidx
        have hstep : calcOrderGo hav eta (fuel + 1) (hd :: tl) cLat cLng cum ord =
            { ride_id := (((hd :: tl).get ⟨nearestIdxIn hav cLat cLng (hd :: tl), hidx⟩)).id
              order := ord
              eta_minutes := cum + eta cLat cLng
                (((hd :: tl).get ⟨nearestIdxIn hav cLat cLng (hd :: tl), hidx⟩)).pickup_lat
                (((hd :: tl).get ⟨nearestIdxIn hav cLat cLng (hd :: tl), hidx⟩)).pickup_lng } ::
              calcOrderGo hav eta fuel
                ((hd :: tl).eraseIdx (nearestIdxIn hav cLat cLng (hd :: tl)))
                (((hd :: tl).get ⟨nearestIdxIn hav cLat cLng (hd :: tl), hidx⟩)).pickup_lat
                (((hd :: tl).get ⟨nearestIdxIn hav cLat cLng (hd :: tl), hidx⟩)).pickup_lng
                (cum + eta cLat cLng
                  (((hd :: tl).get ⟨nearestIdxIn hav cLat cLng (hd :: tl), hidx⟩)).pickup_lat
                  (((hd :: tl).get ⟨nearestIdxIn hav cLat cLng (hd :: tl), hidx⟩)).pickup_lng)
                (ord + 1) := by
          simp only [calcOrderGo, hget]
        have hlen2 : ((hd :: tl).eraseIdx (nearestIdxIn hav cLat cLng (hd :: tl))).length
            = tl.length := by
          have := List.length_eraseIdx_add_one hidx
          simp only [List.length_cons] at this
          omega
        obtain ⟨ho, hc, hp⟩ := ih ((hd :: tl).eraseIdx (nearestIdxIn hav cLat cLng (hd :: tl)))
          (((hd :: tl).get ⟨nearestIdxIn hav cLat cLng (hd :: tl), hidx⟩)).pickup_lat
          (((hd :: tl).get ⟨nearestIdxIn hav cLat cLng (hd :: tl), hidx⟩)).pickup_lng
          (cum + eta cLat cLng
            (((hd :: tl).get ⟨nearestIdxIn hav cLat cLng (hd :: tl), hidx⟩)).pickup_lat
            (((hd :: tl).get ⟨nearestIdxIn hav cLat cLng (hd :: tl), hidx⟩)).pickup_lng)
          (ord + 1)
          (by rw [hlen2]; simpa using Nat.le_of_succ_le_succ (by simpa using hlen))
        rw [hstep]
        refine ⟨?_, ?_, ?_⟩
        · rw [List.map_cons, ho, hlen2]
          rfl
        · rw [List.map_cons]
          exact List.Chain.cons (Nat.le_add_right _ _) hc
        · rw [List.map_cons]
          have hperm1 : (hd :: tl).Perm
              ((((hd :: tl).get ⟨nearestIdxIn hav cLat cLng (hd :: tl), hidx⟩)) ::
                (hd :: tl).eraseIdx (nearestIdxIn hav cLat cLng (hd :: tl))) := by
            refine (List.perm_cons_erase (List.getElem_mem hidx)).trans ?_
            exact List.Perm.cons _ (List.erase_getElem hidx)
          have := hperm1.map Stop.id
          exact (List.Perm.cons _ hp).trans this.symm

theorem mkItems_map_order (bid now : Nat) :
    ∀ (po : List OrderEntry) (nid : Nat),
      (mkItems bid now po nid).map RideBatchItem.pickup_order_index
        = po.map OrderEntry.order := by
  intro po
  induction po with
  | nil => intro nid; rfl
  | cons e es ih =>
      intro nid
      unfold mkItems
      rw [List.map_cons, List.map_cons, ih (nid + 1)]

theorem mkItems_map_ride (bid now : Nat) :
    ∀ (po : List OrderEntry) (nid : Nat),
      (mkItems bid now po nid).map RideBatchItem.ride_request_id
        = po.map OrderEntry.ride_id := by
  intro po
  induction po with
  | nil => intro nid; rfl
  | cons e es ih =>
      intro nid
      unfold mkItems
      rw [List.map_cons, List.map_cons, ih (nid + 1)]

theorem mkItems_batch_id (bid now : Nat) :
    ∀ (po : List OrderEntry) (nid : Nat) (i : RideBatchItem),
      i ∈ mkItems bid now po nid → i.batch_id = bid := by
  intro po
  induction po with
  | nil => intro nid i hi; cases hi
  | cons e es ih =>
      intro nid i hi
      unfold mkItems at hi
      rcases List.mem_cons.mp hi with rfl | hi'
      · rfl
      · exact ih (nid + 1) i hi'

theorem createBatch_success_shape (hav : Hav) (eta : Eta) (ev driverId : Nat)
    (rideIds : List Nat) (now : Nat) (s : DB) (driver : Driver) (dLat dLng : ℚ)
    (hfd : s.findDriver driverId = some driver)
    (hlat : driver.current_lat = some dLat) (hlng : driver.current_lng = some dLng)
    (ha : dLat ≠ 0) (hb : dLng ≠ 0) :
    createBatch hav eta ev driverId rideIds now s =
      (none,
        some { id := s.next_id, event_id := ev, driver_id := some driverId
               status := .pending
               total_passengers :=
                 (((s.rides.filter fun r => rideIds.contains r.id).map Ride.passenger_count).sum)
               created_at := now },
        { s with
          batches := s.batches ++
            [{ id := s.next_id, event_id := ev, driver_id := some driverId
               status := .pending
               total_passengers :=
                 (((s.rides.filter fun r => rideIds.contains r.id).map Ride.passenger_count).sum)
               created_at := now }]
          batch_items := s.batch_items ++
            mkItems s.next_id now
              (calculatePickupOrder hav eta dLat dLng
                ((s.rides.filter fun r => rideIds.contains r.id).map rideToStop))
              (s.next_id + 1)
          next_id := s.next_id + 1 +
            (mkItems s.next_id now
              (calculatePickupOrder hav eta dLat dLng
                ((s.rides.filter fun r => rideIds.contains r.id).map rideToStop))
              (s.next_id + 1)).length
          rides := (calculatePickupOrder hav eta dLat dLng
              ((s.rides.filter fun r => rideIds.contains r.id).map rideToStop)).foldl
            (fun (l : List Ride) (e : OrderEntry) => updateRideById e.ride_id
              (fun r =>
                { r with
                  batch_id := some s.next_id
                  pickup_sequence_index := some e.order
                  assigned_driver_id := some driverId
                  status := .assigned
                  driver_eta_minutes := some (e.eta_minutes : ℤ) })
              l)
            s.rides
          drivers := updateDriverById driverId
            (fun d =>
              { d with
                current_status := .assigned
                current_passenger_load :=
                  (((s.rides.filter fun r => rideIds.contains r.id).map
                    Ride.passenger_count).sum) })
            s.drivers }) := by
  unfold createBatch
  simp only [hfd, hlat, hlng]
  rw [if_neg (by push_neg; exact ⟨ha, hb⟩)]

/-- Claim C6: a successful `createBatch` over the k fetched rides creates
k items whose `pickup_order_index` values are exactly `{0, ..., k-1}`
(the list `range k`, so no gaps and no repeats), assigned by the
nearest-neighbor order starting from the driver's position, and the
cumulative ETA minutes of the pickup order are non-decreasing as the
index increases. -/
theorem C6_batch_item_ordering (hav : Hav) (eta : Eta) (ev driverId : Nat)
    (rideIds : List Nat) (now : Nat) (s : DB) (driver : Driver) (dLat dLng : ℚ)
    (hfd : s.findDriver driverId = some driver)
    (hlat : driver.current_lat = some dLat) (hlng : driver.current_lng = some dLng)
    (ha : dLat ≠ 0) (hb : dLng ≠ 0) :
    ∃ b, (createBatch hav eta ev driverId rideIds now s).2.1 = some b
      ∧ (createBatch hav eta ev driverId rideIds now s).2.2.batch_items
          = s.batch_items ++
            mkItems b.id now
              (calculatePickupOrder hav eta dLat dLng
                ((s.rides.filter fun r => rideIds.contains r.id).map rideToStop))
              (s.next_id + 1)
      ∧ (mkItems b.id now
            (calculatePickupOrder hav eta dLat dLng
              ((s.rides.filter fun r => rideIds.contains r.id).map rideToStop))
            (s.next_id + 1)).map RideBatchItem.pickup_order_index
          = List.range (s.rides.filter fun r => rideIds.contains r.id).length
      ∧ List.Chain' (· ≤ ·)
          ((calculatePickupOrder hav eta dLat dLng
            ((s.rides.filter fun r => rideIds.contains r.id).map rideToStop)).map
            OrderEntry.eta_minutes) := by
  have hshape := createBatch_success_shape hav eta ev driverId rideIds now s driver
    dLat dLng hfd hlat hlng ha hb
  obtain ⟨ho, hc, _⟩ := calcOrderGo_spec hav eta
    ((s.rides.filter fun r => rideIds.contains r.id).map rideToStop).length
    ((s.rides.filter fun r => rideIds.contains r.id).map rideToStop) dLat dLng 0 0
    (le_refl _)
  refine ⟨{ id := s.next_id, event_id := ev, driver_id := some driverId
            status := .pending
            total_passengers :=
              ((s.rides.filter fun r => rideIds.contains r.id).map Ride.passenger_count).sum
            created_at := now }, ?_, ?_, ?_, ?_⟩
  · rw [hshape]
  · rw [hshape]
  · rw [mkItems_map_order]
    unfold calculatePickupOrder
    rw [ho, List.length_map]
    exact (List.range_eq_range' _).symm
  · unfold calculatePickupOrder
    exact chain_to_chain' hc

def c6RideA : Ride :=
  { id := 1, event_id := 1, pickup_lat := 4, pickup_lng := 4, passenger_count := 2
    status := .waiting, created_at := 10 }

def c6RideB : Ride :=
  { id := 2, event_id := 1, pickup_lat := 5, pickup_lng := 5, passenger_count := 1
    status := .waiting, created_at := 20 }

def c6Driver : Driver :=
  { id := 9, event_id := 1, is_online := true, current_status := .available
    current_lat := some 1, current_lng := some 2, max_capacity := 4 }

def c6DB : DB := { rides := [c6RideA, c6RideB], drivers := [c6Driver], next_id := 70 }

/-- Claim C6, witness: the ordering theorem instantiated at a concrete
two-ride `createBatch` call. -/
theorem C6_witness :
    ∃ b, (createBatch havZero etaTen 1 9 [1, 2] 500 c6DB).2.1 = some b
      ∧ (createBatch havZero etaTen 1 9 [1, 2] 500 c6DB).2.2.batch_items
          = c6DB.batch_items ++
            mkItems b.id 500
              (calculatePickupOrder havZero etaTen 1 2
                ((c6DB.rides.filter fun r => ([1, 2] : List Nat).contains r.id).map rideToStop))
              (c6DB.next_id + 1)
      ∧ (mkItems b.id 500
            (calculatePickupOrder havZero etaTen 1 2
              ((c6DB.rides.filter fun r => ([1, 2] : List Nat).contains r.id).map rideToStop))
            (c6DB.next_id + 1)).map RideBatchItem.pickup_order_index
          = List.range (c6DB.rides.filter fun r => ([1, 2] : List Nat).contains r.id).length
      ∧ List.Chain' (· ≤ ·)
          ((calculatePickupOrder havZero etaTen 1 2
            ((c6DB.rides.filter fun r => ([1, 2] : List Nat).contains r.id).map rideToStop)).map
            OrderEntry.eta_minutes) :=
  C6_batch_item_ordering havZero etaTen 1 9 [1, 2] 500 c6DB c6Driver 1 2
    (by decide) rfl rfl (by decide) (by decide)

/-! ## Claim C4 — batch totals and driver capacity -/

/-- The rides (not just ids) the greedy capacity scan of `batchDispatch`
selects; `selectRidesForCapacity` returns their ids. -/
def greedyRidesR (cap : ℤ) : List Ride → ℤ → List Ride
  | [], _ => []
  | r :: rs, sum =>
      if sum + (r.passenger_count : ℤ) ≤ cap then
        r :: greedyRidesR cap rs (sum + (r.passenger_count : ℤ))
      else greedyRidesR cap rs sum

theorem greedySkipSelect_eq_map (cap : ℤ) :
    ∀ (l : List Ride) (sum : ℤ),
      greedySkipSelect cap l sum = (greedyRidesR cap l sum).map Ride.id := by
  intro l
  induction l with
  | nil => intro sum; rfl
  | cons r rs ih =>
      intro sum
      unfold greedySkipSelect greedyRidesR
      by_cases hfit : sum + (r.passenger_count : ℤ) ≤ cap
      · rw [if_pos hfit, if_pos hfit, List.map_cons, ih]
      · rw [if_neg hfit, if_neg hfit, ih]

theorem greedyRidesR_sublist (cap : ℤ) :
    ∀ (l : List Ride) (sum : ℤ), (greedyRidesR cap l sum).Sublist l := by
  intro l
  induction l with
  | nil => intro sum; exact List.Sublist.refl _
  | cons r rs ih =>
      intro sum
      unfold greedyRidesR
      by_cases hfit : sum + (r.passenger_count : ℤ) ≤ cap
      · rw [if_pos hfit]
        exact (ih _).cons₂ r
      · rw [if_neg hfit]
        exact (ih _).cons r

theorem greedyRidesR_bound (cap : ℤ) :
    ∀ (l : List Ride) (sum : ℤ), greedyRidesR cap l sum ≠ [] →
      sum + ((greedyRidesR cap l sum).map fun r => (r.passenger_count : ℤ)).sum ≤ cap := by
  intro l
  induction l with
  | nil => intro sum h; exact absurd rfl h
  | cons r rs ih =>
      intro sum h
      unfold greedyRidesR at h ⊢
      by_cases hfit : sum + (r.passenger_count : ℤ) ≤ cap
      · rw [if_pos hfit] at h ⊢
        rcases hrec : greedyRidesR cap rs (sum + (r.passenger_count : ℤ)) with _ | ⟨x, xs⟩
        · simpa using hfit
        · have hb := ih (sum + (r.passenger_count : ℤ)) (by rw [hrec]; simp)
          rw [hrec] at hb
          simp only [List.map_cons, List.sum_cons] at hb ⊢
          omega
      · rw [if_neg hfit] at h ⊢
        exact ih sum h

theorem eq_of_key_eq (key : α → Nat) (l : List α) (hnd : (l.map key).Nodup)
    (x y : α) (hx : x ∈ l) (hy : y ∈ l) (hkey : key x = key y) : x = y := by
  induction l with
  | nil => cases hx
  | cons z zs ih =>
      have hnd2 : (∀ w ∈ zs, key w ≠ key z) ∧ (zs.map key).Nodup := by simpa using hnd
      rcases List.mem_cons.mp hx with rfl | hx' <;> rcases List.mem_cons.mp hy with rfl | hy'
      · rfl
      · exact absurd hkey.symm (hnd2.1 y hy')
      · exact absurd hkey (hnd2.1 x hx')
      · exact ih hnd2.2 hx' hy'

theorem find?_updateBy_ne (key : α → Nat) (k rid : Nat) (f : α → α)
    (hf : ∀ x, key (f x) = key x) (hne : k ≠ rid) (l : List α) :
    (updateBy key k f l).find? (fun x => key x == rid)
      = l.find? (fun x => key x == rid) := by
  induction l with
  | nil => rfl
  | cons x xs ih =>
      rw [updateBy_cons]
      by_cases hx : key x = k
      · rw [if_pos hx]
        have hxr : key x ≠ rid := fun he => hne (hx ▸ he)
        rw [List.find?_cons_of_neg _ (by simp [hf, hxr]),
          List.find?_cons_of_neg _ (by simp [hxr]), ih]
      · rw [if_neg hx]
        by_cases hxr : key x = rid
        · rw [List.find?_cons_of_pos _ (by simp [hxr]), List.find?_cons_of_pos _ (by simp [hxr])]
        · rw [List.find?_cons_of_neg _ (by simp [hxr]),
            List.find?_cons_of_neg _ (by simp [hxr]), ih]

/-- The ids of a batch's member rides, via its stored items. -/
def memberRideIds (bid : Nat) (s : DB) : List Nat :=
  (s.batch_items.filter fun i => i.batch_id == bid).map RideBatchItem.ride_request_id

/-- A stored ride's passenger count (0 for a dangling reference). -/
def ridePassengers (rid : Nat) (s : DB) : Nat :=
  ((s.findRide rid).map Ride.passenger_count).getD 0

/-- Sum of the member rides' passenger counts of a stored batch. -/
def sumMemberPassengers (bid : Nat) (s : DB) : Nat :=
  ((memberRideIds bid s).map fun rid => ridePassengers rid s).sum

theorem count_find?_updateBy (k : Nat) (f : Ride → Ride)
    (hid : ∀ r, (f r).id = r.id) (hcnt : ∀ r, (f r).passenger_count = r.passenger_count)
    (l : List Ride) (rid : Nat) :
    ((updateBy Ride.id k f l).find? fun r => r.id == rid).map Ride.passenger_count
      = (l.find? fun r => r.id == rid).map Ride.passenger_count := by
  by_cases hk : k = rid
  · subst hk
    rw [find?_updateBy Ride.id k f hid]
    cases hfind : l.find? fun r => r.id == k
    · rfl
    · show some ((f _).passenger_count) = _
      rw [hcnt]
      rfl
  · rw [find?_updateBy_ne Ride.id k rid f hid hk]

theorem count_find?_foldl_update (bid did : Nat) :
    ∀ (po : List OrderEntry) (l : List Ride) (rid : Nat),
      ((po.foldl
          (fun (l : List Ride) (e : OrderEntry) => updateRideById e.ride_id
            (fun r =>
              { r with
                batch_id := some bid
                pickup_sequence_index := some e.order
                assigned_driver_id := some did
                status := .assigned
                driver_eta_minutes := some (e.eta_minutes : ℤ) })
            l)
          l).find? fun r => r.id == rid).map Ride.passenger_count
        = (l.find? fun r => r.id == rid).map Ride.passenger_count := by
  intro po
  induction po with
  | nil => intro l rid; rfl
  | cons e es ih =>
      intro l rid
      rw [List.foldl_cons, ih]
      exact count_find?_updateBy e.ride_id _ (by intro r; rfl) (by intro r; rfl) l rid

theorem insertByKey_perm (key : α → Nat) (x : α) :
    ∀ l : List α, (insertByKey key x l).Perm (x :: l) := by
  intro l
  induction l with
  | nil => exact List.Perm.refl _
  | cons y ys ih =>
      unfold insertByKey
      by_cases hle : key x ≤ key y
      · rw [if_pos hle]
      · rw [if_neg hle]
        exact (ih.cons y).trans (List.Perm.swap x y ys)

theorem sortByKey_perm (key : α → Nat) : ∀ l : List α, (sortByKey key l).Perm l := by
  intro l
  induction l with
  | nil => exact List.Perm.refl _
  | cons x xs ih =>
      unfold sortByKey
      exact (insertByKey_perm key x (sortByKey key xs)).trans (ih.cons x)

theorem filter_mem_ids_perm (l sel : List Ride)
    (hndl : (l.map Ride.id).Nodup) (hndsel : (sel.map Ride.id).Nodup)
    (hmem : ∀ x ∈ sel, x ∈ l) :
    (l.filter fun r => (sel.map Ride.id).contains r.id).Perm sel := by
  have hnl : l.Nodup := List.Nodup.of_map _ hndl
  have hns : sel.Nodup := List.Nodup.of_map _ hndsel
  have hfn : (l.filter fun r => (sel.map Ride.id).contains r.id).Nodup := hnl.filter _
  have hsub1 : (l.filter fun r => (sel.map Ride.id).contains r.id) ⊆ sel := by
    intro x hx
    have hx2 := List.mem_filter.mp hx
    have hcont : x.id ∈ sel.map Ride.id := by simpa using hx2.2
    obtain ⟨y, hy, hyid⟩ := List.mem_map.mp hcont
    have hxy : x = y := eq_of_key_eq Ride.id l hndl x y hx2.1 (hmem y hy) hyid.symm
    rw [hxy]
    exact hy
  have hsub2 : sel ⊆ l.filter fun r => (sel.map Ride.id).contains r.id := by
    intro x hx
    refine List.mem_filter.mpr ⟨hmem x hx, ?_⟩
    have hxm : x.id ∈ sel.map Ride.id := List.mem_map.mpr ⟨x, hx, rfl⟩
    simpa using hxm
  exact (hfn.subperm hsub1).antisymm (hns.subperm hsub2)

theorem sum_counts_cast :
    ∀ l : List Ride,
      (((l.map Ride.passenger_count).sum : Nat) : ℤ)
        = (l.map fun r => (r.passenger_count : ℤ)).sum := by
  intro l
  induction l with
  | nil => rfl
  | cons r rs ih =>
      simp only [List.map_cons, List.sum_cons, Nat.cast_add, ih]

theorem clusterNearestStep_cases (hav : Hav) (cl : RideCluster)
    (best : Driver × Option ℚ) (d : Driver) :
    (clusterNearestStep hav cl best d).1 = best.1
      ∨ (clusterNearestStep hav cl best d).1 = d := by
  unfold clusterNearestStep
  rcases hlat : d.current_lat with _ | la
  · left
    simp only [hlat]
  · rcases hlng : d.current_lng with _ | lb
    · left
      simp only [hlat, hlng]
    · simp only [hlat, hlng]
      by_cases h0 : la = 0
      · rw [if_pos h0]
        left; rfl
      · rw [if_neg h0]
        by_cases h1 : lb = 0
        · rw [if_pos h1]
          left; rfl
        · rw [if_neg h1]
          rcases hb2 : best.2 with _ | m
          · simp only [hb2]
            right; trivial
          · simp only [hb2]
            by_cases hd : hav cl.avg_lat cl.avg_lng la lb < m
            · rw [if_pos hd]
              right; rfl
            · rw [if_neg hd]
              left; rfl

theorem clusterNearest_go_mem (hav : Hav) (cl : RideCluster) :
    ∀ (l : List Driver) (best : Driver × Option ℚ),
      (l.foldl (clusterNearestStep hav cl) best).1 = best.1
        ∨ (l.foldl (clusterNearestStep hav cl) best).1 ∈ l := by
  intro l
  induction l with
  | nil => intro best; left; rfl
  | cons d ds ih =>
      intro best
      rw [List.foldl_cons]
      rcases ih (clusterNearestStep hav cl best d) with h | h
      · rw [h]
        rcases clusterNearestStep_cases hav cl best d with h2 | h2
        · left; exact h2
        · right
          rw [h2]
          exact List.mem_cons_self d ds
      · right
        exact List.mem_cons_of_mem d h

theorem clusterNearest_mem (hav : Hav) (cl : RideCluster) (d0 : Driver)
    (rest : List Driver) : nearestDriverToCluster hav cl d0 rest ∈ d0 :: rest := by
  unfold nearestDriverToCluster
  rcases clusterNearest_go_mem hav cl (d0 :: rest) (d0, none) with h | h
  · rw [h]
    exact List.mem_cons_self _ _
  · exact h

theorem createBatch_none_state (hav : Hav) (eta : Eta) (ev did : Nat)
    (ids : List Nat) (now : Nat) (s : DB)
    (h : (createBatch hav eta ev did ids now s).2.1 = none) :
    (createBatch hav eta ev did ids now s).2.2 = s := by
  unfold createBatch at h ⊢
  rcases hfd : s.findDriver did with _ | drv
  · simp only [hfd]
  · simp only [hfd] at h ⊢
    rcases hlat : drv.current_lat with _ | la
    · simp only [hlat]
    · rcases hlng : drv.current_lng with _ | lb
      · simp only [hlat, hlng]
      · simp only [hlat, hlng] at h ⊢
        by_cases hz : la = 0 ∨ lb = 0
        · rw [if_pos hz]
        · rw [if_neg hz] at h
          exact absurd h (by simp)

theorem createBatch_some_inv (hav : Hav) (eta : Eta) (ev did : Nat)
    (ids : List Nat) (now : Nat) (s : DB) (bb : RideBatch)
    (h : (createBatch hav eta ev did ids now s).2.1 = some bb) :
    ∃ drv la lb, s.findDriver did = some drv ∧ drv.current_lat = some la
      ∧ drv.current_lng = some lb ∧ la ≠ 0 ∧ lb ≠ 0 := by
  unfold createBatch at h
  rcases hfd : s.findDriver did with _ | drv
  · rw [hfd] at h
    exact absurd h (by simp)
  · simp only [hfd] at h
    rcases hlat : drv.current_lat with _ | la
    · simp only [hlat] at h
      exact absurd h (by simp)
    · rcases hlng : drv.current_lng with _ | lb
      · simp only [hlat, hlng] at h
        exact absurd h (by simp)
      · simp only [hlat, hlng] at h
        by_cases hz : la = 0 ∨ lb = 0
        · rw [if_pos hz] at h
          exact absurd h (by simp)
        · push_neg at hz
          exact ⟨drv, la, lb, rfl, hlat, hlng, hz.1, hz.2⟩

theorem batchDispatchStep_shape (hav : Hav) (eta : Eta) (ev now bc ra : Nat)
    (s : DB) (cl : RideCluster) (d0 : Driver) (rest : List Driver)
    (hcand : findAvailableDriversWithCapacity ev (min cl.total_passengers 4 : Nat) s
      = d0 :: rest) :
    batchDispatchStep hav eta ev now (bc, ra, s) cl =
      (if ((selectRidesForCapacity
              (availableCapacity (nearestDriverToCluster hav cl d0 rest))
              (sortByKey Ride.created_at
                (s.rides.filter fun r => cl.ride_ids.contains r.id))).1).isEmpty
       then (bc, ra, s)
       else
         match createBatch hav eta ev (nearestDriverToCluster hav cl d0 rest).id
             ((selectRidesForCapacity
               (availableCapacity (nearestDriverToCluster hav cl d0 rest))
               (sortByKey Ride.created_at
                 (s.rides.filter fun r => cl.ride_ids.contains r.id))).1)
             now s with
         | (_, none, s1) => (bc, ra, s1)
         | (_, some _, s1) =>
             (bc + 1,
              ra + ((selectRidesForCapacity
                (availableCapacity (nearestDriverToCluster hav cl d0 rest))
                (sortByKey Ride.created_at
                  (s.rides.filter fun r => cl.ride_ids.contains r.id))).1).length,
              s1)) := by
  unfold batchDispatchStep
  simp only [hcand]

theorem batchDispatchStep_empty (hav : Hav) (eta : Eta) (ev now bc ra : Nat)
    (s : DB) (cl : RideCluster)
    (hcand : findAvailableDriversWithCapacity ev (min cl.total_passengers 4 : Nat) s
      = []) :
    batchDispatchStep hav eta ev now (bc, ra, s) cl = (bc, ra, s) := by
  unfold batchDispatchStep
  simp only [hcand]

theorem createBatch_sum_members (hav : Hav) (eta : Eta) (ev did : Nat)
    (ids : List Nat) (now : Nat) (s : DB) (bb : RideBatch) (s1 : DB)
    (hnd : (s.rides.map Ride.id).Nodup)
    (hfresh : ∀ i ∈ s.batch_items, i.batch_id ≠ s.next_id)
    (hcb : createBatch hav eta ev did ids now s = (none, some bb, s1)) :
    sumMemberPassengers bb.id s1 = bb.total_passengers := by
  obtain ⟨drv, la, lb, hfd, hlat, hlng, hla, hlb⟩ :=
    createBatch_some_inv hav eta ev did ids now s bb (by rw [hcb])
  have hshape := createBatch_success_shape hav eta ev did ids now s drv la lb
    hfd hlat hlng hla hlb
  rw [hcb] at hshape
  simp only [Prod.mk.injEq, Option.some.injEq] at hshape
  obtain ⟨-, hbb, hs1⟩ := hshape
  have hbid : bb.id = s.next_id := by rw [hbb]
  have htp : bb.total_passengers
      = ((s.rides.filter fun r => ids.contains r.id).map Ride.passenger_count).sum := by
    rw [hbb]
  have hbi : s1.batch_items = s.batch_items ++
      mkItems s.next_id now
        (calculatePickupOrder hav eta la lb
          ((s.rides.filter fun r => ids.contains r.id).map rideToStop))
        (s.next_id + 1) := by
    rw [hs1]
  have hrid : s1.rides =
      (calculatePickupOrder hav eta la lb
          ((s.rides.filter fun r => ids.contains r.id).map rideToStop)).foldl
        (fun (l : List Ride) (e : OrderEntry) => updateRideById e.ride_id
          (fun r =>
            { r with
              batch_id := some s.next_id
              pickup_sequence_index := some e.order
              assigned_driver_id := some did
              status := .assigned
              driver_eta_minutes := some (e.eta_minutes : ℤ) })
          l)
        s.rides := by
    rw [hs1]
  unfold sumMemberPassengers memberRideIds ridePassengers DB.findRide
  rw [hbid, htp, hbi, hrid, List.filter_append]
  have hfil1 : (s.batch_items.filter fun i => i.batch_id == s.next_id) = [] :=
    List.filter_eq_nil_iff.mpr fun i hi => by
      simp only [beq_iff_eq]
      exact hfresh i hi
  have hfil2 : ((mkItems s.next_id now
        (calculatePickupOrder hav eta la lb
          ((s.rides.filter fun r => ids.contains r.id).map rideToStop))
        (s.next_id + 1)).filter fun i => i.batch_id == s.next_id)
      = mkItems s.next_id now
        (calculatePickupOrder hav eta la lb
          ((s.rides.filter fun r => ids.contains r.id).map rideToStop))
        (s.next_id + 1) :=
    List.filter_eq_self.mpr fun i hi => by
      simp only [beq_iff_eq]
      exact mkItems_batch_id s.next_id now _ (s.next_id + 1) i hi
  rw [hfil1, hfil2, List.nil_append, mkItems_map_ride]
  simp only [count_find?_foldl_update]
  obtain ⟨-, -, hperm⟩ := calcOrderGo_spec hav eta
    (((s.rides.filter fun r => ids.contains r.id).map rideToStop)).length
    ((s.rides.filter fun r => ids.contains r.id).map rideToStop) la lb 0 0 (le_refl _)
  have hperm2 : ((calculatePickupOrder hav eta la lb
        ((s.rides.filter fun r => ids.contains r.id).map rideToStop)).map
        OrderEntry.ride_id).Perm
      ((s.rides.filter fun r => ids.contains r.id).map Ride.id) := by
    have hids : (((s.rides.filter fun r => ids.contains r.id).map rideToStop).map Stop.id)
        = (s.rides.filter fun r => ids.contains r.id).map Ride.id := by
      rw [List.map_map]
      exact List.map_congr_left fun r _ => rfl
    rw [← hids]
    exact hperm
  refine (((hperm2.map _).sum_eq).trans ?_)
  rw [List.map_map]
  refine congrArg List.sum (List.map_congr_left fun r hr => ?_)
  show (((s.rides.find? fun x => x.id == r.id).map Ride.passenger_count).getD 0)
      = r.passenger_count
  rw [find?_of_nodup Ride.id s.rides r hnd (List.mem_of_mem_filter hr)]
  rfl

/-- Claim C4: every batch that a `batchDispatch` step creates (over a
well-formed store whose next primary key is fresh for the item table)
records as `total_passengers` exactly the sum of its member rides'
`passenger_count` in the post-state, the total fits the assigned
driver's free seats, and — whenever the stored `max_capacity` is
JS-truthy, i.e. nonzero, so that the `|| 4` fallback is not taken — the
total does not exceed that driver's `max_capacity`. -/
theorem C4_capacity_invariant (hav : Hav) (eta : Eta) (ev now bc ra : Nat)
    (s : DB) (cl : RideCluster) (hwf : dispatchWF s)
    (hfresh : ∀ i ∈ s.batch_items, i.batch_id ≠ s.next_id) :
    ∀ b ∈ (batchDispatchStep hav eta ev now (bc, ra, s) cl).2.2.batches,
      b ∉ s.batches →
      ∃ d ∈ s.drivers,
        b.driver_id = some d.id
        ∧ b.total_passengers
            = sumMemberPassengers b.id (batchDispatchStep hav eta ev now (bc, ra, s) cl).2.2
        ∧ (b.total_passengers : ℤ) ≤ availableCapacity d
        ∧ (d.max_capacity ≠ 0 → b.total_passengers ≤ d.max_capacity) := by
  intro b hb hnb
  rcases hcand : findAvailableDriversWithCapacity ev (min cl.total_passengers 4 : Nat) s
      with _ | ⟨d0, rest⟩
  · rw [batchDispatchStep_empty hav eta ev now bc ra s cl hcand] at hb
    exact absurd hb hnb
  · rw [batchDispatchStep_shape hav eta ev now bc ra s cl d0 rest hcand] at hb ⊢
    set nd := nearestDriverToCluster hav cl d0 rest with hnddef
    set fetched := sortByKey Ride.created_at
      (s.rides.filter fun r => cl.ride_ids.contains r.id) with hfetdef
    set rtb := (selectRidesForCapacity (availableCapacity nd) fetched).1 with hrtbdef
    by_cases hempty : rtb.isEmpty
    · rw [if_pos hempty] at hb
      exact absurd hb hnb
    · rw [if_neg hempty] at hb ⊢
      obtain ⟨⟨e, ob, s1⟩, hcb⟩ :
          ∃ t, createBatch hav eta ev nd.id rtb now s = t := ⟨_, rfl⟩
      rcases ob with _ | bb
      · have h21 : (createBatch hav eta ev nd.id rtb now s).2.1 = none := by rw [hcb]
        have h22 := createBatch_none_state hav eta ev nd.id rtb now s h21
        rw [hcb] at h22
        have h23 : s1 = s := h22
        simp only [hcb] at hb
        rw [h23] at hb
        exact absurd hb hnb
      · simp only [hcb] at hb ⊢
        have h21 : (createBatch hav eta ev nd.id rtb now s).2.1 = some bb := by rw [hcb]
        obtain ⟨drv, la, lb, hfd, hlat, hlng, hla, hlb⟩ :=
          createBatch_some_inv hav eta ev nd.id rtb now s bb h21
        have hshape := createBatch_success_shape hav eta ev nd.id rtb now s drv la lb
          hfd hlat hlng hla hlb
        rw [hcb] at hshape
        simp only [Prod.mk.injEq, Option.some.injEq] at hshape
        obtain ⟨he, hbb, hs1⟩ := hshape
        have hcb2 : createBatch hav eta ev nd.id rtb now s = (none, some bb, s1) := by
          rw [hcb, he]
        have hnd_mem : nd ∈ s.drivers := by
          have h1 := clusterNearest_mem hav cl d0 rest
          rw [← hcand] at h1
          unfold findAvailableDriversWithCapacity at h1
          exact List.mem_of_mem_filter (List.mem_of_mem_filter h1)
        have hbat : s1.batches = s.batches ++ [bb] := by rw [hs1, hbb]
        rw [hbat] at hb
        rcases List.mem_append.mp hb with hL | hR
        · exact absurd hL hnb
        · have hbeq : b = bb := List.mem_singleton.mp hR
          subst hbeq
          have hsel : rtb = (greedyRidesR (availableCapacity nd) fetched 0).map Ride.id := by
            rw [hrtbdef]
            unfold selectRidesForCapacity
            rw [selectRidesForCapacity_go (availableCapacity nd) fetched [] 0,
              List.nil_append, greedySkipSelect_eq_map]
          have hne : greedyRidesR (availableCapacity nd) fetched 0 ≠ [] := by
            intro h0
            apply hempty
            rw [hsel, h0]
            rfl
          have hbound := greedyRidesR_bound (availableCapacity nd) fetched 0 hne
          have hfperm : fetched.Perm (s.rides.filter fun r => cl.ride_ids.contains r.id) :=
            sortByKey_perm Ride.created_at _
          have hfilnd : ((s.rides.filter fun r => cl.ride_ids.contains r.id).map Ride.id).Nodup :=
            List.Nodup.sublist ((List.filter_sublist s.rides).map Ride.id) hwf.1
          have hfetnd : (fetched.map Ride.id).Nodup :=
            ((hfperm.map Ride.id).nodup_iff).mpr hfilnd
          have hselnd : ((greedyRidesR (availableCapacity nd) fetched 0).map Ride.id).Nodup :=
            List.Nodup.sublist
              ((greedyRidesR_sublist (availableCapacity nd) fetched 0).map Ride.id) hfetnd
          have hselmem : ∀ x ∈ greedyRidesR (availableCapacity nd) fetched 0, x ∈ s.rides := by
            intro x hx
            have hx1 : x ∈ fetched :=
              (greedyRidesR_sublist (availableCapacity nd) fetched 0).subset hx
            have hx2 : x ∈ s.rides.filter fun r => cl.ride_ids.contains r.id :=
              hfperm.subset hx1
            exact List.mem_of_mem_filter hx2
          have hperm3 := filter_mem_ids_perm s.rides
            (greedyRidesR (availableCapacity nd) fetched 0) hwf.1 hselnd hselmem
          have htotv : b.total_passengers
              = ((s.rides.filter fun r => rtb.contains r.id).map Ride.passenger_count).sum := by
            rw [hbb]
          have htotz : (b.total_passengers : ℤ) ≤ availableCapacity nd := by
            rw [htotv]
            simp only [hsel]
            rw [(hperm3.map Ride.passenger_count).sum_eq, sum_counts_cast]
            omega
          refine ⟨nd, hnd_mem, by rw [hbb], ?_, htotz, ?_⟩
          · exact (createBatch_sum_members hav eta ev nd.id rtb now s b s1
              hwf.1 hfresh hcb2).symm
          · intro hmc
            have h3 := htotz
            unfold availableCapacity effMaxCapacity at h3
            rw [if_neg hmc] at h3
            omega

def c4RideA : Ride :=
  { id := 1, event_id := 1, pickup_lat := 1, pickup_lng := 1, passenger_count := 3
    status := .waiting, created_at := 100 }

def c4RideB : Ride :=
  { id := 2, event_id := 1, pickup_lat := 1, pickup_lng := 1, passenger_count := 2
    status := .waiting, created_at := 200 }

def c4RideC : Ride :=
  { id := 3, event_id := 1, pickup_lat := 1, pickup_lng := 1, passenger_count := 1
    status := .waiting, created_at := 300 }

def c4Driver : Driver :=
  { id := 9, event_id := 1, is_online := true, current_status := .available
    current_lat := some 1, current_lng := some 2, max_capacity := 4 }

def c4DB : DB :=
  { rides := [c4RideA, c4RideB, c4RideC], drivers := [c4Driver], next_id := 100 }

def c4Cluster : RideCluster :=
  { cluster_key := (200, 200), ride_ids := [1, 2, 3], total_passengers := 6
    oldest_created_at := 100, avg_lat := 1, avg_lng := 1 }

def c4Batch : RideBatch :=
  { id := 100, event_id := 1, driver_id := some 9, status := .pending
    total_passengers := 4, created_at := 1000 }

theorem C4_witness :
    c4Batch ∈ (batchDispatchStep havZero etaTen 1 1000 (0, 0, c4DB) c4Cluster).2.2.batches
    ∧ ∃ d ∈ c4DB.drivers,
        c4Batch.driver_id = some d.id
        ∧ c4Batch.total_passengers
            = sumMemberPassengers c4Batch.id
                (batchDispatchStep havZero etaTen 1 1000 (0, 0, c4DB) c4Cluster).2.2
        ∧ (c4Batch.total_passengers : ℤ) ≤ availableCapacity d
        ∧ (d.max_capacity ≠ 0 → c4Batch.total_passengers ≤ d.max_capacity) :=
  ⟨by decide,
   C4_capacity_invariant havZero etaTen 1 1000 0 0 c4DB c4Cluster
     (by constructor <;> decide) (by decide) c4Batch (by decide) (by decide)⟩
